import Mathlib

/-!
# Verification of the weewx-realtime_data rolling-statistics core

Shallow embedding of the observation buffers (`ScalarBuffer`, `VectorBuffer`,
`Buffer`), the loop-packet cache (`CachedPacket`) from `bin/user/rtd.py`, and
the packet-processing loop of `RealtimeGaugeDataThread` from
`bin/user/gaugedata.py`, together with theorems settling the specification
claims about them.

Modelling conventions:
* Python `float` sensor values are modelled as `ℚ` (the claims under study
  concern only ordering, addition and equality of values, never
  floating-point rounding); epoch timestamps are modelled as `ℤ`.
* `None` is modelled with `Option`; a Python attribute that may be unbound
  (never assigned) is modelled as an outer `Option` layer where `none` means
  "attribute missing" and reading it raises `AttributeError`.
* Python exceptions are modelled with `Except PyErr`.
* Python `dict`s are modelled as association lists built exclusively through
  `aset` (assignment replaces the value in place for an existing key and
  appends for a new key, exactly like `dict` insertion-order semantics).
* External collaborators (the weewx unit-conversion service, the
  trigonometric library) are modelled as explicit function parameters, since
  their numeric content is irrelevant to the claims.
-/

namespace RTD

/-- Python exceptions that the embedded code can raise. -/
inductive PyErr where
  | keyError
  | attributeError
  | typeError
  | nameError
  | valueError
  deriving DecidableEq, Repr

/-- rtd.py `MAX_AGE`: length of history to be maintained in seconds. -/
def MAX_AGE : ℤ := 600

/-- rtd.py `HIST_MANIFEST`: obs for which we need a history. -/
def HIST_MANIFEST : List String := ["windSpeed", "windDir", "windGust", "wind"]

/-- rtd.py `MANIFEST`: list of obs that we will attempt to buffer. -/
def MANIFEST : List String :=
  ["outTemp", "barometer", "outHumidity", "rain", "rainRate",
   "humidex", "windchill", "heatindex", "windSpeed", "inTemp",
   "appTemp", "dewpoint", "windDir", "UV", "radiation", "wind",
   "windGust", "windGustDir", "windrun"]

/-- Association-list lookup (first binding wins), modelling Python `d[k]`
reads and `k in d` tests. -/
def alookup {α : Type} : List (String × α) → String → Option α
  | [], _ => none
  | (k2, v) :: rest, k => if k2 = k then some v else alookup rest k

/-- Association-list assignment, modelling Python `d[k] = v`: an existing
key keeps its position and gets the new value, a new key is appended. -/
def aset {α : Type} (l : List (String × α)) (k : String) (v : α) :
    List (String × α) :=
  if (alookup l k).isSome then
    l.map (fun kv => if kv.1 = k then (k, v) else kv)
  else
    l ++ [(k, v)]

theorem alookup_append {α : Type} (l1 l2 : List (String × α)) (k : String) :
    alookup (l1 ++ l2) k =
      match alookup l1 k with
      | some v => some v
      | none => alookup l2 k := by
  induction l1 with
  | nil => simp [alookup]
  | cons kv rest ih =>
    by_cases hk : kv.1 = k
    · simp [alookup, hk]
    · simpa [alookup, hk] using ih

theorem alookup_mapset_self {α : Type} (l : List (String × α)) (k : String)
    (v : α) (h : (alookup l k).isSome) :
    alookup (l.map (fun kv => if kv.1 = k then (k, v) else kv)) k = some v := by
  induction l with
  | nil => simp [alookup] at h
  | cons kv rest ih =>
    by_cases hk : kv.1 = k
    · simp only [List.map_cons, if_pos hk]
      simp [alookup]
    · simp only [alookup, if_neg hk] at h
      simp only [List.map_cons, if_neg hk]
      simp only [alookup, if_neg hk]
      exact ih h

theorem alookup_mapset_ne {α : Type} (l : List (String × α)) (k k2 : String)
    (v : α) (h : k2 ≠ k) :
    alookup (l.map (fun kv => if kv.1 = k then (k, v) else kv)) k2 =
      alookup l k2 := by
  induction l with
  | nil => simp [alookup]
  | cons kv rest ih =>
    by_cases hk : kv.1 = k
    · have hne : ¬ (k = k2) := fun hh => h hh.symm
      have hne2 : ¬ (kv.1 = k2) := by rw [hk]; exact hne
      simp only [List.map_cons, if_pos hk]
      simp only [alookup, if_neg hne, if_neg hne2]
      exact ih
    · simp only [List.map_cons, if_neg hk]
      by_cases hk2 : kv.1 = k2
      · simp only [alookup, if_pos hk2]
      · simp only [alookup, if_neg hk2]
        exact ih

theorem alookup_aset_self {α : Type} (l : List (String × α)) (k : String)
    (v : α) : alookup (aset l k v) k = some v := by
  unfold aset
  split
  · exact alookup_mapset_self l k v (by assumption)
  · rename_i hnone
    rw [alookup_append]
    rcases hs : alookup l k with _ | w
    · simp [alookup]
    · exact absurd (by simp [hs]) hnone

theorem alookup_aset_ne {α : Type} (l : List (String × α)) (k k2 : String)
    (v : α) (h : k2 ≠ k) : alookup (aset l k v) k2 = alookup l k2 := by
  unfold aset
  split
  · exact alookup_mapset_ne l k k2 v h
  · rw [alookup_append]
    rcases hs : alookup l k2 with _ | w
    · have hne : ¬ (k = k2) := fun hh => h hh.symm
      simp [alookup, hs, hne]
    · simp [hs]

/-- rtd.py `VectorTuple`: a `(magnitude, direction)` pair; either component
may be `None`. -/
abbrev VectorTuple := Option ℚ × Option ℚ

/-- rtd.py `ObservationBuffer.trim_history`: drop history entries older than
`ts - MAX_AGE` and flag whether the oldest retained-before-trim entry already
exceeded the window.  The source computes `min([a.ts for a in self.history])`,
raising `ValueError` on an empty history; the method is only ever invoked
immediately after an entry with timestamp `ts` has been appended, so the
history is never empty there and folding the minimum with `ts` as the seed
coincides exactly with the source's minimum. -/
def trim_history {α : Type} (history : List (α × ℤ)) (ts : ℤ) :
    Bool × List (α × ℤ) :=
  let oldest_ts := ts - MAX_AGE
  (decide ((history.map Prod.snd).foldr min ts ≤ oldest_ts),
   history.filter (fun s => decide (oldest_ts < s.2)))

/-- rtd.py `ScalarBuffer` state.  In the source the `history`/`history_full`
attributes only exist when `history=True` was requested; here they always
exist but every read in the source is guarded by `use_history`, so the
difference is unobservable. -/
structure ScalarBuffer where
  units : Option Nat
  last : Option ℚ
  lasttime : Option ℤ
  use_history : Bool
  history_full : Bool
  history : List (ℚ × ℤ)
  min : Option ℚ
  mintime : Option ℤ
  max : Option ℚ
  maxtime : Option ℤ
  sum : ℚ
  count : ℕ
  deriving DecidableEq, Repr

/-- rtd.py `ScalarBuffer.__init__` with `stats=None`: all fields from
`ScalarBuffer.default_init`. -/
def ScalarBuffer.fresh (units : Option Nat) (history : Bool) : ScalarBuffer :=
  { units := units, last := none, lasttime := none,
    use_history := history, history_full := false, history := [],
    min := none, mintime := none, max := none, maxtime := none,
    sum := 0, count := 0 }

/-- rtd.py `ScalarBuffer.add_value(val, ts, hilo)`: a `None` value is a
no-op; otherwise update extrema (strict comparison), sum, last/lasttime
(monotone timestamp acceptance), count, and append-and-trim the history when
history-bearing. -/
def ScalarBuffer.add_value (b : ScalarBuffer) (val : Option ℚ) (ts : ℤ)
    (hilo : Bool) : ScalarBuffer :=
  match val with
  | none => b
  | some v =>
    let b1 :=
      if hilo then
        let bmin :=
          match b.min with
          | none => { b with min := some v, mintime := some ts }
          | some mn =>
            if v < mn then { b with min := some v, mintime := some ts } else b
        match bmin.max with
        | none => { bmin with max := some v, maxtime := some ts }
        | some mx =>
          if mx < v then { bmin with max := some v, maxtime := some ts }
          else bmin
      else b
    let b2 := { b1 with sum := b1.sum + v }
    let b3 :=
      match b2.lasttime with
      | none => { b2 with last := some v, lasttime := some ts }
      | some lt =>
        if lt ≤ ts then { b2 with last := some v, lasttime := some ts } else b2
    let b4 := { b3 with count := b3.count + 1 }
    if b4.use_history then
      let t := trim_history (b4.history ++ [(v, ts)]) ts
      { b4 with history_full := t.1, history := t.2 }
    else b4

/-- rtd.py `ScalarBuffer.day_reset`: reassign the `default_init` fields,
leaving `last`, `lasttime` and the history attributes untouched. -/
def ScalarBuffer.day_reset (b : ScalarBuffer) : ScalarBuffer :=
  { b with min := none, mintime := none, max := none, maxtime := none,
           sum := 0, count := 0 }

/-- rtd.py `VectorBuffer` state (same remarks as for `ScalarBuffer`). -/
structure VectorBuffer where
  units : Option Nat
  last : Option VectorTuple
  lasttime : Option ℤ
  use_history : Bool
  history_full : Bool
  history : List (VectorTuple × ℤ)
  min : Option ℚ
  mintime : Option ℤ
  max : Option ℚ
  max_dir : Option ℚ
  maxtime : Option ℤ
  sum : ℚ
  xsum : ℚ
  ysum : ℚ
  sumtime : ℚ
  count : ℕ
  deriving DecidableEq, Repr

/-- rtd.py `VectorBuffer.__init__` with `stats=None`: all fields from
`VectorBuffer.default_init`. -/
def VectorBuffer.fresh (units : Option Nat) (history : Bool) : VectorBuffer :=
  { units := units, last := none, lasttime := none,
    use_history := history, history_full := false, history := [],
    min := none, mintime := none, max := none, max_dir := none,
    maxtime := none, sum := 0, xsum := 0, ysum := 0, sumtime := 0,
    count := 0 }

/-- rtd.py `VectorBuffer.add_value(val, ts, hilo)`.  A value with `None`
magnitude is a no-op.  `cosd d` and `sind d` stand for the source's
`math.cos(math.radians(d))` and `math.sin(math.radians(d))` (external math
library, irrelevant to the claims).  Note the source's `if self.lasttime:`
truthiness test: `sumtime` is not accumulated when `lasttime` is `None`
*or equal to `0`*. -/
def VectorBuffer.add_value (cosd sind : ℚ → ℚ) (b : VectorBuffer)
    (val : VectorTuple) (ts : ℤ) (hilo : Bool) : VectorBuffer :=
  match val.1 with
  | none => b
  | some m =>
    let b1 :=
      if hilo then
        let bmin :=
          match b.min with
          | none => { b with min := some m, mintime := some ts }
          | some mn =>
            if m < mn then { b with min := some m, mintime := some ts } else b
        match bmin.max with
        | none =>
          { bmin with max := some m, max_dir := val.2, maxtime := some ts }
        | some mx =>
          if mx < m then
            { bmin with max := some m, max_dir := val.2, maxtime := some ts }
          else bmin
      else b
    let b2 := { b1 with sum := b1.sum + m }
    let b3 :=
      match b2.lasttime with
      | some lt =>
        if lt = 0 then b2
        else { b2 with sumtime := b2.sumtime + ((ts - lt : ℤ) : ℚ) }
      | none => b2
    let b4 :=
      match val.2 with
      | some d =>
        { b3 with xsum := b3.xsum + m * cosd (90 - d),
                  ysum := b3.ysum + m * sind (90 - d) }
      | none => b3
    let b5 :=
      match b4.lasttime with
      | none => { b4 with last := some val, lasttime := some ts }
      | some lt =>
        if lt ≤ ts then { b4 with last := some val, lasttime := some ts }
        else b4
    let b6 := { b5 with count := b5.count + 1 }
    if b6.use_history && val.2.isSome then
      let t := trim_history (b6.history ++ [(val, ts)]) ts
      { b6 with history_full := t.1, history := t.2 }
    else b6

/-- rtd.py `VectorBuffer.day_reset`: reassign the `default_init` fields,
leaving `last`, `lasttime` and the history attributes untouched. -/
def VectorBuffer.day_reset (b : VectorBuffer) : VectorBuffer :=
  { b with min := none, mintime := none, max := none, max_dir := none,
           maxtime := none, sum := 0, xsum := 0, ysum := 0, sumtime := 0,
           count := 0 }

/-- rtd.py `VectorBuffer.day_vec_avg`: the day average vector.  `sqrtf`
stands for `math.sqrt` and `deg_atan2 y x` for
`math.degrees(math.atan2(y, x))` (external math library).  The
`ZeroDivisionError` raised by `(xsum**2 + ysum**2) / sumtime**2` when
`sumtime == 0` is caught in the source and `(0.0, 0.0)` is returned; every
other path is exception-free, which the total return type reflects. -/
def VectorBuffer.day_vec_avg (sqrtf : ℚ → ℚ) (deg_atan2 : ℚ → ℚ → ℚ)
    (b : VectorBuffer) : ℚ × ℚ :=
  if b.sumtime ^ 2 = 0 then (0, 0)
  else
    let m := sqrtf ((b.xsum ^ 2 + b.ysum ^ 2) / b.sumtime ^ 2)
    let d := 90 - deg_atan2 b.ysum b.xsum
    let d2 := if 0 ≤ d then d else d + 360
    (m, d2)

/-- A loop packet / archive record: a `dict` whose `dateTime` and `usUnits`
entries are kept as separate fields (the source skips them when iterating
over observations via the `IGNORE` list or a manifest test, and none of the
manifests contain them). -/
structure Packet where
  dateTime : Option ℤ
  usUnits : Nat
  fields : List (String × Option ℚ)
  deriving DecidableEq, Repr

/-- Modelled from the external weewx.units.to_std_system interface (the
weewx library is not part of this repository): a packet already in the
target unit system is returned unchanged, otherwise every observation value
is converted by the pure per-field conversion function `convVal from to obs`
(with `None` mapping to `None`) and `usUnits` is retargeted. -/
def to_std_system (convVal : Nat → Nat → String → ℚ → ℚ) (p : Packet)
    (target : Nat) : Packet :=
  if p.usUnits = target then p
  else
    { dateTime := p.dateTime, usUnits := target,
      fields := p.fields.map
        (fun kv => (kv.1, kv.2.map (convVal p.usUnits target kv.1))) }

/-- rtd.py `CachedPacket` state.  `cache` maps an observation name to its
last non-`None` value and the timestamp it was seen at.
`std_unit_system = none` models the attribute being *unbound* (the
`__init__` branch taken when a record is supplied never assigns it), so
reading it raises `AttributeError`; `some u` models the attribute holding
the Python value `u : Option Nat`. -/
structure CachedPacket where
  cache : List (String × (ℚ × ℤ))
  std_unit_system : Option (Option Nat)
  deriving DecidableEq, Repr

/-- rtd.py `CachedPacket.OBS`: "These fields must be available in every
loop packet read from the cache." -/
def CachedPacket.OBS : List String :=
  ["cloudbase", "windDir", "windrun", "inHumidity", "outHumidity",
   "barometer", "radiation", "rain", "rainRate", "windSpeed",
   "appTemp", "dewpoint", "heatindex", "humidex", "inTemp",
   "outTemp", "windchill", "UV", "maxSolarRad"]

/-- One iteration of the caching loop of rtd.py `CachedPacket.update`:
"we only add non-None observations to the cache". -/
def cache_one (ts : ℤ) (acc : List (String × (ℚ × ℤ)))
    (kv : String × Option ℚ) : List (String × (ℚ × ℤ)) :=
  match kv.2 with
  | some w => aset acc kv.1 (w, ts)
  | none => acc

/-- rtd.py `CachedPacket.update(packet, ts)`: read `self.std_unit_system`
(raising `AttributeError` when the attribute was never assigned), adopt the
packet's unit system if the cache has none, convert the packet to the
cache's unit system, then cache every non-`None` observation value with
timestamp `ts` (the `dateTime`/`usUnits` metadata entries of the dict are
the `IGNORE` list, held outside `fields` here). -/
def CachedPacket.update (convVal : Nat → Nat → String → ℚ → ℚ)
    (c : CachedPacket) (p : Packet) (ts : ℤ) : Except PyErr CachedPacket :=
  match c.std_unit_system with
  | none => .error .attributeError
  | some u0 =>
    let u := match u0 with
      | none => p.usUnits
      | some s => s
    let conv := to_std_system convVal p u
    let newCache := conv.fields.foldl (cache_one ts) c.cache
    .ok { cache := newCache, std_unit_system := some (some u) }

/-- rtd.py `CachedPacket.__init__(rec)`: start with an empty cache; when an
archive record is supplied, prime the cache by calling `update` with the
record's `dateTime` (or the current system time `now`); otherwise set
`std_unit_system` to `None`.  Note that the record branch calls `update`
*without* `std_unit_system` ever having been assigned. -/
def CachedPacket.init (convVal : Nat → Nat → String → ℚ → ℚ)
    (rec : Option Packet) (now : ℤ) : Except PyErr CachedPacket :=
  let c0 : CachedPacket := { cache := [], std_unit_system := none }
  match rec with
  | some r =>
    let ts := match r.dateTime with
      | some t => t
      | none => now
    c0.update convVal r ts
  | none => .ok { c0 with std_unit_system := some none }

/-- rtd.py `CachedPacket.get_value(obs, ts, max_age)`: the cached value if
it is at most `max_age` old, else `None`. -/
def CachedPacket.get_value (c : CachedPacket) (obs : String) (ts : ℤ)
    (max_age : ℤ) : Option ℚ :=
  match alookup c.cache obs with
  | some vt => if ts - vt.2 ≤ max_age then some vt.1 else none
  | none => none

/-- The packet produced by `CachedPacket.get_packet`: its `usUnits` entry is
the cache's (possibly `None`) unit system. -/
structure OutPacket where
  dateTime : ℤ
  usUnits : Option Nat
  fields : List (String × Option ℚ)
  deriving DecidableEq, Repr

/-- rtd.py `CachedPacket.get_packet(ts, max_age)`: build a packet holding
`get_value` for each observation *currently in the cache* (the loop is
`for obs in self.cache`; cache keys are unique, so evaluating `get_value`
entry-wise is the same).  Reading `self.std_unit_system` raises
`AttributeError` when the attribute is unbound. -/
def CachedPacket.get_packet (c : CachedPacket) (ts : ℤ) (max_age : ℤ) :
    Except PyErr OutPacket :=
  match c.std_unit_system with
  | none => .error .attributeError
  | some u =>
    .ok { dateTime := ts, usUnits := u,
          fields := c.cache.map
            (fun kv => (kv.1, c.get_value kv.1 ts max_age)) }

/-- An entry of the `Buffer` dict: rtd.py stores either a `ScalarBuffer` or
a `VectorBuffer` per observation (selected through `init_dict`). -/
inductive ObsBuf where
  | scalar (b : ScalarBuffer)
  | vector (b : VectorBuffer)
  deriving DecidableEq, Repr

/-- Day reset dispatched on the entry's runtime type. -/
def ObsBuf.day_reset : ObsBuf → ObsBuf
  | .scalar b => .scalar b.day_reset
  | .vector b => .vector b.day_reset

/-- The entry's `units` attribute. -/
def ObsBuf.units : ObsBuf → Option Nat
  | .scalar b => b.units
  | .vector b => b.units

/-- rtd.py `init_dict = ListOfDicts({'wind': VectorBuffer})` with default
`ScalarBuffer`: the fresh entry built for a previously unseen observation. -/
def init_entry (obs : String) (units : Option Nat) (history : Bool) : ObsBuf :=
  if obs = "wind" then .vector (VectorBuffer.fresh units history)
  else .scalar (ScalarBuffer.fresh units history)

/-- rtd.py `Buffer` state (a `dict` subclass with extra attributes; the
`threading.Lock` is irrelevant to the sequential claims and not modelled). -/
structure Buffer where
  manifest : List String
  timespan : ℤ × ℤ
  last_windSpeed_ts : Option ℤ
  std_unit_system : Option Nat
  entries : List (String × ObsBuf)
  deriving DecidableEq, Repr

/-- Modelled from the external weeutil.weeutil.TimeSpan interface (the
weeutil library is not part of this repository):
`TimeSpan.includesArchiveTime(t)` is `start < t <= stop`. -/
def includesArchiveTime (span : ℤ × ℤ) (t : ℤ) : Bool :=
  decide (span.1 < t) && decide (t ≤ span.2)

/-- The loop of rtd.py `Buffer.start_of_day_reset`: call `day_reset` on
`self[obs]` for each `obs` of the manifest, raising `KeyError` when an
observation of the manifest has no entry yet (plain `self[obs]` on a
missing key). -/
def reset_list (es : List (String × ObsBuf)) :
    List String → Except PyErr (List (String × ObsBuf))
  | [] => .ok es
  | obs :: rest =>
    match alookup es obs with
    | none => .error .keyError
    | some e => reset_list (aset es obs e.day_reset) rest

/-- rtd.py `Buffer.start_of_day_reset`: "Reset our hi/lo data but don't
touch the history".  Nothing else of the buffer (in particular not
`timespan`) is assigned. -/
def Buffer.start_of_day_reset (b : Buffer) : Except PyErr Buffer :=
  (reset_list b.entries b.manifest).map (fun es => { b with entries := es })

/-- rtd.py `Buffer.add_value(packet, obs)`: create the entry on first sight
(`init_dict` choice, `units` from the packet, history iff the observation is
in `HIST_MANIFEST`), convert the packet value to the entry's unit system
when they differ (external `weewx.units.convertStd`, abstracted by
`convVal`; a `None` target unit system would make the source's
`convertStd` raise a `KeyError`), then call the entry's `add_value` with
the packet's `dateTime`.  Passing a scalar value to a `VectorBuffer` entry
(possible when `init_dict` selects `VectorBuffer`) raises `AttributeError`
in the source (`val.mag` on a float).  `add_packet` only calls this with a
non-`None` `dateTime`; a `None` `dateTime` with a non-`None` value is
modelled as the `TypeError` the source's timestamp comparison raises. -/
def Buffer.add_value (convVal : Nat → Nat → String → ℚ → ℚ) (b : Buffer)
    (p : Packet) (obs : String) : Except PyErr Buffer := do
  let pv ← match alookup p.fields obs with
    | some x => pure x
    | none => .error .keyError
  let entries :=
    if (alookup b.entries obs).isSome then b.entries
    else aset b.entries obs
      (init_entry obs (some p.usUnits) (decide (obs ∈ HIST_MANIFEST)))
  let b := { b with entries := entries }
  let e ← match alookup b.entries obs with
    | some e => pure e
    | none => .error .keyError
  let value ← if e.units = some p.usUnits then pure pv
    else
      match e.units with
      | some u => pure (pv.map (convVal p.usUnits u obs))
      | none => .error .keyError
  match e with
  | .scalar s =>
    match value, p.dateTime with
    | none, _ => .ok b
    | some v, some dt =>
      let es := aset b.entries obs (ObsBuf.scalar (s.add_value (some v) dt true))
      .ok { b with entries := es }
    | some _, none => .error .typeError
  | .vector _ => .error .attributeError

/-- rtd.py `Buffer.calc_windrun(packet)`: distance integrated from
`windSpeed` over the time since `last_windSpeed_ts`, per unit system
(weewx.US = 1, weewx.METRIC = 16, weewx.METRICWX = 17); for an unknown unit
system the source leaves `val = None` and the local `unit` unbound, so the
conversion branch raises `NameError`.  A `None` `windSpeed` raises
`TypeError` (None * int). -/
def Buffer.calc_windrun (convVal : Nat → Nat → String → ℚ → ℚ) (b : Buffer)
    (p : Packet) : Except PyErr (Option ℚ) := do
  let lts ← match b.last_windSpeed_ts with
    | some t => pure t
    | none => .error .typeError
  let dt ← match p.dateTime with
    | some t => pure t
    | none => .error .typeError
  let ws ← match alookup p.fields "windSpeed" with
    | some (some w) => pure w
    | some none => .error .typeError
    | none => .error .keyError
  let vu : Option ℚ :=
    if p.usUnits = 1 then some (ws * ((dt - lts : ℤ) : ℚ) / 3600)
    else if p.usUnits = 16 then some (ws * ((dt - lts : ℤ) : ℚ) / 3600)
    else if p.usUnits = 17 then some (ws * ((dt - lts : ℤ) : ℚ))
    else none
  let wrUnits ← match alookup b.entries "windrun" with
    | some e => pure e.units
    | none => .error .keyError
  if wrUnits = some p.usUnits then pure vu
  else
    match vu with
    | none => .error .nameError
    | some v =>
      match wrUnits with
      | some u => pure (some (convVal p.usUnits u "windrun" v))
      | none => .error .keyError

/-- rtd.py `Buffer.add_wind_value(packet, obs)`: add the observation as a
scalar; when the packet carries no `windrun` field and the observation is
`windSpeed`, derive `windrun` from the elapsed time since
`last_windSpeed_ts` (creating its entry with `history=obs in HIST_MANIFEST`,
i.e. `True`, a quirk of the source) and remember the packet's timestamp;
finally feed a `(speed, windDir)` vector sample into the dedicated `wind`
`VectorBuffer` (created *without* history on this path), converting the
speed to that entry's unit system when needed. -/
def Buffer.add_wind_value (convVal : Nat → Nat → String → ℚ → ℚ)
    (cosd sind : ℚ → ℚ) (b : Buffer) (p : Packet) (obs : String) :
    Except PyErr Buffer := do
  let b ← b.add_value convVal p obs
  let b ←
    if (alookup p.fields "windrun").isNone && decide (obs = "windSpeed") then do
      let b :=
        if (alookup b.entries "windrun").isSome then b
        else
          let es := aset b.entries "windrun"
            (ObsBuf.scalar (ScalarBuffer.fresh (some p.usUnits)
              (decide (obs ∈ HIST_MANIFEST))))
          { b with entries := es }
      let b ←
        match b.last_windSpeed_ts with
        | some _ => do
          let wr ← b.calc_windrun convVal p
          match alookup b.entries "windrun", p.dateTime with
          | some (.scalar s), some dt =>
            let es := aset b.entries "windrun"
              (ObsBuf.scalar (s.add_value wr dt true))
            pure { b with entries := es }
          | some (.scalar s), none =>
            match wr with
            | none =>
              let es := aset b.entries "windrun" (ObsBuf.scalar s)
              pure { b with entries := es }
            | some _ => .error .typeError
          | some (.vector _), _ => .error .attributeError
          | none, _ => .error .keyError
        | none => pure b
      pure { b with last_windSpeed_ts := p.dateTime }
    else pure b
  if obs = "windSpeed" then do
    let b :=
      if (alookup b.entries "wind").isSome then b
      else
        let es := aset b.entries "wind"
          (ObsBuf.vector (VectorBuffer.fresh (some p.usUnits) false))
        { b with entries := es }
    match alookup b.entries "wind" with
    | some (.vector w) => do
      let ws ← match alookup p.fields "windSpeed" with
        | some x => pure x
        | none => .error .keyError
      let value ← if w.units = some p.usUnits then pure ws
        else
          match w.units with
          | some u => pure (ws.map (convVal p.usUnits u "windSpeed"))
          | none => .error .keyError
      let wd : Option ℚ := match alookup p.fields "windDir" with
        | some x => x
        | none => none
      match value, p.dateTime with
      | none, _ => .ok b
      | some v, some dt =>
        let es := aset b.entries "wind"
          (ObsBuf.vector (w.add_value cosd sind (some v, wd) dt true))
        .ok { b with entries := es }
      | some _, none => .error .typeError
    | some (.scalar _) => .error .attributeError
    | none => .error .keyError
  else pure b

/-- The per-observation dispatch loop of rtd.py `Buffer.add_packet`:
`add_functions = ListOfDicts({'windSpeed': Buffer.add_wind_value})` with
default `Buffer.add_value`, applied to each manifest observation of the
converted packet in packet order. -/
def Buffer.add_obs_list (convVal : Nat → Nat → String → ℚ → ℚ)
    (cosd sind : ℚ → ℚ) (b : Buffer) (p : Packet) :
    List String → Except PyErr Buffer
  | [] => pure b
  | obs :: rest => do
    let b2 ←
      if obs = "windSpeed" then b.add_wind_value convVal cosd sind p obs
      else b.add_value convVal p obs
    Buffer.add_obs_list convVal cosd sind b2 p rest

/-- rtd.py `Buffer.add_packet(packet)`: ignore packets without a timestamp;
when the timestamp falls outside `self.timespan` call
`start_of_day_reset()` (note: `self.timespan` is never reassigned); adopt
the packet's unit system when none is set yet; convert the packet; then
dispatch every packet observation that is in the manifest. -/
def Buffer.add_packet (convVal : Nat → Nat → String → ℚ → ℚ)
    (cosd sind : ℚ → ℚ) (b : Buffer) (p : Packet) : Except PyErr Buffer := do
  match p.dateTime with
  | none => pure b
  | some dt => do
    let b ← if !includesArchiveTime b.timespan dt then b.start_of_day_reset
      else pure b
    let b := if b.std_unit_system.isNone then
        { b with std_unit_system := some p.usUnits }
      else b
    let target := match b.std_unit_system with
      | some u => u
      | none => p.usUnits
    let cp := to_std_system convVal p target
    Buffer.add_obs_list convVal cosd sind b cp
      ((cp.fields.map Prod.fst).filter (fun f => decide (f ∈ b.manifest)))

/-- The claim "for every finite sequence of add_value calls": fold a list
of `(value, timestamp)` samples through `ScalarBuffer.add_value` (all
values non-`None`, default `hilo=True`). -/
def scalar_add_seq (b : ScalarBuffer) (l : List (ℚ × ℤ)) : ScalarBuffer :=
  l.foldl (fun acc pv => acc.add_value (some pv.1) pv.2 true) b

/-- Same for `VectorBuffer`: a list of `(magnitude, direction, timestamp)`
samples with non-`None` magnitude. -/
def vector_add_seq (cosd sind : ℚ → ℚ) (b : VectorBuffer)
    (l : List (ℚ × Option ℚ × ℤ)) : VectorBuffer :=
  l.foldl (fun acc q => acc.add_value cosd sind (some q.1, q.2.1) q.2.2 true) b

/-- Identity per-field unit conversion: adequate whenever all packets use
the adopted unit system, in which case the source performs no conversion. -/
def idConv : Nat → Nat → String → ℚ → ℚ := fun _ _ _ v => v

/-- Degenerate stand-in for the trigonometric helpers (their values are
irrelevant to the claims instantiated with it). -/
def zeroTrig : ℚ → ℚ := fun _ => 0

/-- Concrete buffer for the day-reset counterexample: one manifest
observation with its entry present, covering the day `(0, 86400]`, unit
system already adopted. -/
def cexBuffer : Buffer :=
  { manifest := ["outTemp"], timespan := (0, 86400),
    last_windSpeed_ts := none, std_unit_system := some 1,
    entries := [("outTemp", ObsBuf.scalar (ScalarBuffer.fresh (some 1) false))] }

/-- First packet after midnight: timestamp 90000 lies outside
`(0, 86400]`. -/
def cexPacket1 : Packet :=
  { dateTime := some 90000, usUnits := 1, fields := [("outTemp", some 10)] }

/-- Second packet, 60 s later, inside the same new day `(86400, 172800]`. -/
def cexPacket2 : Packet :=
  { dateTime := some 90060, usUnits := 1, fields := [("outTemp", some 12)] }

/-- A barometer accumulator with visible day statistics, to observe the
reset. -/
def wBarometer : ScalarBuffer :=
  { ScalarBuffer.fresh (some 1) false with
    min := some 5, mintime := some 100, max := some 9, maxtime := some 200,
    sum := 30, count := 3 }

/-- Concrete two-observation buffer for instantiating the amended
day-reset theorem. -/
def wBuffer : Buffer :=
  { manifest := ["outTemp", "barometer"], timespan := (0, 86400),
    last_windSpeed_ts := none, std_unit_system := some 1,
    entries := [("outTemp", ObsBuf.scalar (ScalarBuffer.fresh (some 1) false)),
                ("barometer", ObsBuf.scalar wBarometer)] }

/-- A packet outside `wBuffer`'s day span carrying only `outTemp`. -/
def wPacket : Packet :=
  { dateTime := some 90000, usUnits := 1, fields := [("outTemp", some 10)] }

/-- Extract the `ok` buffer of a result, with a fallback. -/
def okOr (r : Except PyErr Buffer) (d : Buffer) : Buffer :=
  match r with
  | .ok x => x
  | .error _ => d

/-- The buffer produced by feeding `wPacket` to `wBuffer`. -/
def wRes : Buffer :=
  okOr (Buffer.add_packet idConv zeroTrig zeroTrig wBuffer wPacket) wBuffer

/-- The `timespan` of a successful `add_packet` result. -/
def timespan_of (r : Except PyErr Buffer) : Option (ℤ × ℤ) :=
  match r with
  | .ok b => some b.timespan
  | .error _ => none

/-- The `count` of a scalar entry of a successful `add_packet` result. -/
def scalar_count_of (r : Except PyErr Buffer) (obs : String) : Option ℕ :=
  match r with
  | .ok b =>
    match alookup b.entries obs with
    | some (.scalar s) => some s.count
    | _ => none
  | .error _ => none

/-- The cache state produced by `CachedPacket()` (no record): empty cache,
`std_unit_system` bound to `None`. -/
def emptyCachedPacket : CachedPacket :=
  { cache := [], std_unit_system := some none }

/-- Concrete cache for instantiating the update theorem: one field cached
at timestamp 100, unit system adopted. -/
def wCache : CachedPacket :=
  { cache := [("outTemp", (5, 100))], std_unit_system := some (some 1) }

/-- A packet carrying a `None` value for the cached field. -/
def wCachePacket : Packet :=
  { dateTime := some 900, usUnits := 1, fields := [("outTemp", none)] }

/-- Concrete history-bearing accumulator with one stale entry, for
instantiating the history-pruning theorem. -/
def wHistBuffer : ScalarBuffer :=
  { ScalarBuffer.fresh none true with history := [(5, 1)] }

end RTD

namespace GaugeData

/-- An arbitrary Python exception escaping one of the packet-processing
steps of gaugedata.py `RealtimeGaugeDataThread`. -/
inductive GdErr where
  | exc
  deriving DecidableEq, Repr

/-- The operations gaugedata.py `RealtimeGaugeDataThread.process_packet`
composes, abstracted over their (irrelevant, large) bodies; each may raise.
`min_interval_ok` is the gate `self.min_interval is None or
(self.last_write + float(self.min_interval)) < time.time()`;
`get_lost_contact`, `calculate`, `write_data` are the methods of those
names; `export` is the pluggable exporter's `export(data)`
(`has_exporter` is the `if self.exporter:` truthiness test). -/
structure PacketHandlers (Packet Data : Type) where
  min_interval_ok : Packet → Bool
  get_lost_contact : Packet → Except GdErr Bool
  calculate : Packet → Except GdErr Data
  write_data : Data → Except GdErr Unit
  has_exporter : Bool
  exporter_export : Data → Except GdErr Unit

/-- gaugedata.py `RealtimeGaugeDataThread.process_packet(packet)` control
flow: inside the minimum-interval gate, the lost-contact check runs
unguarded; `calculate` is wrapped in `try..except` (an exception is logged
and the packet dropped); on success `write_data` is likewise wrapped; on
success the exporter's `export` runs unguarded.  The function's result is
`ok` when control returns normally and `error` when an exception escapes
to the caller. -/
def process_packet {Packet Data : Type} (H : PacketHandlers Packet Data)
    (p : Packet) : Except GdErr Unit :=
  if H.min_interval_ok p then do
    let _ ← H.get_lost_contact p
    match H.calculate p with
    | .error _ => pure ()
    | .ok d =>
      match H.write_data d with
      | .error _ => pure ()
      | .ok _ => if H.has_exporter then H.exporter_export d else pure ()
  else pure ()

/-- What the dispatch loop of gaugedata.py `RealtimeGaugeDataThread.run`
does after handling one `'loop'` package. -/
inductive LoopDisposition where
  | continue_processing
  | thread_exit
  deriving DecidableEq, Repr

/-- The `'loop'` branch of gaugedata.py `RealtimeGaugeDataThread.run`:
`process_packet` is wrapped in `try..except Exception`; normal return
continues the queue loop with the next package, while an escaping
exception is logged as critical and the `run` method returns, terminating
the thread's loop. -/
def loop_packet_step {Packet Data : Type} (H : PacketHandlers Packet Data)
    (p : Packet) : LoopDisposition :=
  match process_packet H p with
  | .ok _ => .continue_processing
  | .error _ => .thread_exit

/-- Concrete handlers whose pluggable exporter raises: the minimum-interval
gate passes, the lost-contact check, `calculate` and `write_data` all
succeed, and `export` raises. -/
def cexHandlers : PacketHandlers Unit Unit :=
  { min_interval_ok := fun _ => true,
    get_lost_contact := fun _ => .ok false,
    calculate := fun _ => .ok (),
    write_data := fun _ => .ok (),
    has_exporter := true,
    exporter_export := fun _ => .error .exc }

/-- Concrete handlers whose `calculate` raises and everything else
succeeds. -/
def wGdHandlers : PacketHandlers Unit Unit :=
  { min_interval_ok := fun _ => true,
    get_lost_contact := fun _ => .ok false,
    calculate := fun _ => .error .exc,
    write_data := fun _ => .ok (),
    has_exporter := false,
    exporter_export := fun _ => .ok () }

end GaugeData

namespace RTD

/-- C5: for every accumulator state (scalar and vector alike), `day_reset`
sets `min`, `max` (and their timestamps), `sum` and `count` back to their
initial `None`/zero values while the `history` list's contents are exactly
the same before and after the call. -/
theorem day_reset_zeroes_stats_keeps_history :
    ∀ (s : ScalarBuffer) (v : VectorBuffer),
      (s.day_reset.min = none ∧ s.day_reset.mintime = none ∧
       s.day_reset.max = none ∧ s.day_reset.maxtime = none ∧
       s.day_reset.sum = 0 ∧ s.day_reset.count = 0 ∧
       s.day_reset.history = s.history) ∧
      (v.day_reset.min = none ∧ v.day_reset.mintime = none ∧
       v.day_reset.max = none ∧ v.day_reset.maxtime = none ∧
       v.day_reset.sum = 0 ∧ v.day_reset.count = 0 ∧
       v.day_reset.history = v.history) := by
  intro s v
  exact ⟨⟨rfl, rfl, rfl, rfl, rfl, rfl, rfl⟩,
         ⟨rfl, rfl, rfl, rfl, rfl, rfl, rfl⟩⟩

/-- C6: for every vector accumulator state with `sumtime = 0`,
`day_vec_avg` returns the zero vector `(0.0, 0.0)`; the
`ZeroDivisionError` is recovered locally (the embedding's total return
type has no exception channel), for any behaviour of the external `sqrt`
and `atan2` helpers. -/
theorem day_vec_avg_zero_sumtime (sqrtf : ℚ → ℚ) (deg_atan2 : ℚ → ℚ → ℚ)
    (b : VectorBuffer) (h : b.sumtime = 0) :
    b.day_vec_avg sqrtf deg_atan2 = (0, 0) := by
  unfold VectorBuffer.day_vec_avg
  rw [h]
  norm_num

/-- Witness for `day_vec_avg_zero_sumtime`: a freshly initialised vector
buffer has `sumtime = 0` and its day average is the zero vector. -/
theorem day_vec_avg_zero_sumtime_inst :
    (VectorBuffer.fresh none false).sumtime = 0 ∧
    (VectorBuffer.fresh none false).day_vec_avg zeroTrig (fun _ _ => 0) =
      (0, 0) :=
  ⟨rfl, day_vec_avg_zero_sumtime zeroTrig (fun _ _ => 0)
    (VectorBuffer.fresh none false) rfl⟩

/-- C2 (code bug): constructing a `CachedPacket` pre-primed with a
historical archive record always raises `AttributeError`, because
`__init__` only assigns `self.std_unit_system` in its `rec is None` branch
yet the record branch calls `update`, whose first statement reads that
attribute.  The claimed behaviour (construction succeeds and early
`get_packet` queries return the record's values) is the documented intent
of the constructor's docstring, which the code contradicts. -/
theorem cachedPacket_primed_init_raises
    (convVal : Nat → Nat → String → ℚ → ℚ) (r : Packet) (now : ℤ) :
    CachedPacket.init convVal (some r) now = .error .attributeError := rfl

/-- C8 (code bug): `get_packet` only emits fields currently present in the
cache (`for obs in self.cache`), and nothing ever primes the cache with
the required-field manifest `OBS`; on the cache state produced by
`CachedPacket()` a query returns a packet with *no* observation fields at
all, although `outTemp` is in `OBS`, whose comment reads "These fields
must be available in every loop packet read from the cache". -/
theorem get_packet_missing_manifest_field :
    "outTemp" ∈ CachedPacket.OBS ∧
    emptyCachedPacket.get_packet 1000 600 =
      .ok { dateTime := 1000, usUnits := none, fields := [] } :=
  ⟨by decide, rfl⟩

set_option maxHeartbeats 1000000 in
/-- Closed form of `VectorBuffer.add_value` on a sample with non-`None`
magnitude and `None` direction: only the scalar statistics and the
last-sample fields are written; every field absent from this record update
(notably `xsum`, `ysum`, `history`, `history_full`) is inherited
unchanged. -/
lemma vector_add_value_null_dir_eq (cosd sind : ℚ → ℚ)
    (b : VectorBuffer) (m : ℚ) (ts : ℤ) :
    VectorBuffer.add_value cosd sind b (some m, none) ts true =
      { b with
        last := (match b.lasttime with
                 | none => some ((some m, none) : VectorTuple)
                 | some lt =>
                   if lt ≤ ts then some ((some m, none) : VectorTuple)
                   else b.last),
        lasttime := (match b.lasttime with
                     | none => some ts
                     | some lt => if lt ≤ ts then some ts else b.lasttime),
        min := some (match b.min with
                     | none => m
                     | some mn => if m < mn then m else mn),
        mintime := (match b.min with
                    | none => some ts
                    | some mn => if m < mn then some ts else b.mintime),
        max := some (match b.max with
                     | none => m
                     | some mx => if mx < m then m else mx),
        max_dir := (match b.max with
                    | none => none
                    | some mx => if mx < m then none else b.max_dir),
        maxtime := (match b.max with
                    | none => some ts
                    | some mx => if mx < m then some ts else b.maxtime),
        sum := b.sum + m,
        sumtime := (match b.lasttime with
                    | none => b.sumtime
                    | some lt =>
                      if lt = 0 then b.sumtime
                      else b.sumtime + ((ts - lt : ℤ) : ℚ)),
        count := b.count + 1 } := by
  obtain ⟨bu, bl, blt, buh, bhf, bh, bmn, bmnt, bmx, bmxd, bmxt, bs, bxs,
    bys, bst, bc⟩ := b
  rcases bmn with _ | mn <;> rcases bmx with _ | mx <;> rcases blt with _ | lt <;>
    (first
      | (by_cases h1 : m < mn <;> by_cases h2 : mx < m <;>
          by_cases h3 : lt = 0 <;> by_cases h4 : lt ≤ ts <;>
          simp [VectorBuffer.add_value, h1, h2, h3, h4])
      | (by_cases h1 : m < mn <;> by_cases h2 : mx < m <;>
          simp [VectorBuffer.add_value, h1, h2])
      | (by_cases h1 : m < mn <;> by_cases h3 : lt = 0 <;>
          by_cases h4 : lt ≤ ts <;> simp [VectorBuffer.add_value, h1, h3, h4])
      | (by_cases h2 : mx < m <;> by_cases h3 : lt = 0 <;>
          by_cases h4 : lt ≤ ts <;> simp [VectorBuffer.add_value, h2, h3, h4])
      | (by_cases h1 : m < mn <;> simp [VectorBuffer.add_value, h1])
      | (by_cases h2 : mx < m <;> simp [VectorBuffer.add_value, h2])
      | (by_cases h3 : lt = 0 <;> by_cases h4 : lt ≤ ts <;>
          simp [VectorBuffer.add_value, h3, h4])
      | simp [VectorBuffer.add_value]) <;>
    (try (split_ifs <;> simp_all))

/-- C10: a vector sample with non-`None` magnitude `m` but `None`
direction updates `sum` (by `m`), `count` (by one), `min`/`max` (and
`max_dir`) by the usual extremum rules and `last`/`lasttime` by the usual
monotone-timestamp rule, while `xsum` and `ysum` are unchanged and nothing
is appended to the history list (nor is `history_full` touched). -/
theorem vector_add_value_null_dir_effects (cosd sind : ℚ → ℚ)
    (b : VectorBuffer) (m : ℚ) (ts : ℤ) :
    (VectorBuffer.add_value cosd sind b (some m, none) ts true).xsum =
      b.xsum ∧
    (VectorBuffer.add_value cosd sind b (some m, none) ts true).ysum =
      b.ysum ∧
    (VectorBuffer.add_value cosd sind b (some m, none) ts true).history =
      b.history ∧
    (VectorBuffer.add_value cosd sind b (some m, none) ts true).history_full =
      b.history_full ∧
    (VectorBuffer.add_value cosd sind b (some m, none) ts true).sum =
      b.sum + m ∧
    (VectorBuffer.add_value cosd sind b (some m, none) ts true).count =
      b.count + 1 ∧
    (VectorBuffer.add_value cosd sind b (some m, none) ts true).min =
      some (match b.min with
            | none => m
            | some mn => if m < mn then m else mn) ∧
    (VectorBuffer.add_value cosd sind b (some m, none) ts true).max =
      some (match b.max with
            | none => m
            | some mx => if mx < m then m else mx) ∧
    (VectorBuffer.add_value cosd sind b (some m, none) ts true).max_dir =
      (match b.max with
       | none => none
       | some mx => if mx < m then none else b.max_dir) ∧
    (VectorBuffer.add_value cosd sind b (some m, none) ts true).last =
      (match b.lasttime with
       | none => some (some m, none)
       | some lt => if lt ≤ ts then some (some m, none) else b.last) ∧
    (VectorBuffer.add_value cosd sind b (some m, none) ts true).lasttime =
      (match b.lasttime with
       | none => some ts
       | some lt => if lt ≤ ts then some ts else b.lasttime) := by
  rw [vector_add_value_null_dir_eq]
  exact ⟨rfl, rfl, rfl, rfl, rfl, rfl, rfl, rfl, rfl, rfl, rfl⟩

/-- Closed form of `ScalarBuffer.add_value` on a non-`None` value (with
`hilo=True`): extrema, sum, last-sample fields, count and (when
history-bearing) the appended-and-trimmed history; every field absent from
this record update is inherited unchanged. -/
lemma scalar_add_value_some_eq (b : ScalarBuffer) (v : ℚ) (ts : ℤ) :
    ScalarBuffer.add_value b (some v) ts true =
      { b with
        last := (match b.lasttime with
                 | none => some v
                 | some lt => if lt ≤ ts then some v else b.last),
        lasttime := (match b.lasttime with
                     | none => some ts
                     | some lt => if lt ≤ ts then some ts else b.lasttime),
        min := some (match b.min with
                     | none => v
                     | some mn => if v < mn then v else mn),
        mintime := (match b.min with
                    | none => some ts
                    | some mn => if v < mn then some ts else b.mintime),
        max := some (match b.max with
                     | none => v
                     | some mx => if mx < v then v else mx),
        maxtime := (match b.max with
                    | none => some ts
                    | some mx => if mx < v then some ts else b.maxtime),
        sum := b.sum + v,
        count := b.count + 1,
        history_full :=
          if b.use_history then
            (trim_history (b.history ++ [(v, ts)]) ts).1
          else b.history_full,
        history :=
          if b.use_history then
            (trim_history (b.history ++ [(v, ts)]) ts).2
          else b.history } := by
  obtain ⟨bu, bl, blt, buh, bhf, bh, bmn, bmnt, bmx, bmxt, bs, bc⟩ := b
  rcases bmn with _ | mn <;> rcases bmx with _ | mx <;> rcases blt with _ | lt <;>
    cases buh <;>
    (first
      | (by_cases h1 : v < mn <;> by_cases h2 : mx < v <;>
          by_cases h4 : lt ≤ ts <;>
          simp [ScalarBuffer.add_value, h1, h2, h4])
      | (by_cases h1 : v < mn <;> by_cases h2 : mx < v <;>
          simp [ScalarBuffer.add_value, h1, h2])
      | (by_cases h1 : v < mn <;> by_cases h4 : lt ≤ ts <;>
          simp [ScalarBuffer.add_value, h1, h4])
      | (by_cases h2 : mx < v <;> by_cases h4 : lt ≤ ts <;>
          simp [ScalarBuffer.add_value, h2, h4])
      | (by_cases h1 : v < mn <;> simp [ScalarBuffer.add_value, h1])
      | (by_cases h2 : mx < v <;> simp [ScalarBuffer.add_value, h2])
      | (by_cases h4 : lt ≤ ts <;> simp [ScalarBuffer.add_value, h4])
      | simp [ScalarBuffer.add_value])

/-- `ScalarBuffer.add_value` with a non-`None` value increments `count`. -/
lemma scalar_add_value_some_count (b : ScalarBuffer) (v : ℚ) (ts : ℤ) :
    (ScalarBuffer.add_value b (some v) ts true).count = b.count + 1 := by
  rw [scalar_add_value_some_eq]

/-- The running minimum after a non-`None` `ScalarBuffer.add_value`. -/
lemma scalar_add_value_some_min (b : ScalarBuffer) (v : ℚ) (ts : ℤ) :
    (ScalarBuffer.add_value b (some v) ts true).min =
      some (match b.min with
            | none => v
            | some mn => if v < mn then v else mn) := by
  rw [scalar_add_value_some_eq]

/-- The running maximum after a non-`None` `ScalarBuffer.add_value`. -/
lemma scalar_add_value_some_max (b : ScalarBuffer) (v : ℚ) (ts : ℤ) :
    (ScalarBuffer.add_value b (some v) ts true).max =
      some (match b.max with
            | none => v
            | some mx => if mx < v then v else mx) := by
  rw [scalar_add_value_some_eq]

/-- The history after a non-`None` `ScalarBuffer.add_value` on a
history-bearing buffer: append then trim. -/
lemma scalar_add_value_some_history (b : ScalarBuffer) (v : ℚ) (ts : ℤ)
    (h : b.use_history = true) :
    (ScalarBuffer.add_value b (some v) ts true).history =
      (trim_history (b.history ++ [(v, ts)]) ts).2 := by
  rw [scalar_add_value_some_eq]
  simp [h]

/-- C4: immediately after `add_value(v, t)` with non-`None` `v` on a
history-bearing scalar accumulator, no entry of the history list has a
timestamp `≤ t - MAX_AGE` (the 600 s retention window): `trim_history`
keeps exactly the entries with `ts > t - MAX_AGE`. -/
theorem scalar_add_value_history_pruned (b : ScalarBuffer) (v : ℚ) (ts : ℤ)
    (h : b.use_history = true) :
    ∀ e ∈ (ScalarBuffer.add_value b (some v) ts true).history,
      ¬ (e.2 ≤ ts - MAX_AGE) := by
  intro e he
  rw [scalar_add_value_some_history b v ts h] at he
  unfold trim_history at he
  simp only [List.mem_filter, decide_eq_true_eq] at he
  omega

/-- Witness for `scalar_add_value_history_pruned`: on a history-bearing
buffer holding a stale entry at timestamp 1, adding a value at timestamp
1000 leaves only the new entry, and that entry is not older than the
retention window. -/
theorem scalar_add_value_history_pruned_inst :
    (ScalarBuffer.add_value wHistBuffer (some 7) 1000 true).history =
      [(7, 1000)] ∧
    ¬ ((((7 : ℚ), (1000 : ℤ)) : ℚ × ℤ).2 ≤ 1000 - MAX_AGE) := by
  refine ⟨by decide, ?_⟩
  exact scalar_add_value_history_pruned wHistBuffer 7 1000 rfl
    ((7 : ℚ), (1000 : ℤ)) (by decide)

lemma scalar_add_seq_nil (b : ScalarBuffer) : scalar_add_seq b [] = b := rfl

lemma scalar_add_seq_cons (b : ScalarBuffer) (p : ℚ × ℤ) (l : List (ℚ × ℤ)) :
    scalar_add_seq b (p :: l) =
      scalar_add_seq (b.add_value (some p.1) p.2 true) l := rfl

/-- Each call of the sequence increments `count` by one. -/
lemma scalar_add_seq_count :
    ∀ (l : List (ℚ × ℤ)) (b : ScalarBuffer),
      (scalar_add_seq b l).count = b.count + l.length := by
  intro l
  induction l with
  | nil => intro b; simp [scalar_add_seq_nil]
  | cons p l ih =>
    intro b
    rw [scalar_add_seq_cons, ih, scalar_add_value_some_count]
    simp
    omega

/-- Folding more samples can only decrease an existing running minimum. -/
lemma scalar_add_seq_min_mono :
    ∀ (l : List (ℚ × ℤ)) (b : ScalarBuffer) (mn0 : ℚ),
      b.min = some mn0 →
      ∀ x, (scalar_add_seq b l).min = some x → x ≤ mn0 := by
  intro l
  induction l with
  | nil =>
    intro b mn0 hb x hx
    rw [scalar_add_seq_nil] at hx
    rw [hb] at hx
    exact le_of_eq (Option.some_injective _ hx).symm
  | cons p l ih =>
    intro b mn0 hb x hx
    rw [scalar_add_seq_cons] at hx
    have hb1 : (b.add_value (some p.1) p.2 true).min =
        some (if p.1 < mn0 then p.1 else mn0) := by
      rw [scalar_add_value_some_min, hb]
    have hstep : (if p.1 < mn0 then p.1 else mn0) ≤ mn0 := by
      split
      · exact le_of_lt (by assumption)
      · exact le_refl mn0
    exact le_trans (ih _ _ hb1 x hx) hstep

/-- Folding more samples can only increase an existing running maximum. -/
lemma scalar_add_seq_max_mono :
    ∀ (l : List (ℚ × ℤ)) (b : ScalarBuffer) (mx0 : ℚ),
      b.max = some mx0 →
      ∀ x, (scalar_add_seq b l).max = some x → mx0 ≤ x := by
  intro l
  induction l with
  | nil =>
    intro b mx0 hb x hx
    rw [scalar_add_seq_nil] at hx
    rw [hb] at hx
    exact le_of_eq (Option.some_injective _ hx)
  | cons p l ih =>
    intro b mx0 hb x hx
    rw [scalar_add_seq_cons] at hx
    have hb1 : (b.add_value (some p.1) p.2 true).max =
        some (if mx0 < p.1 then p.1 else mx0) := by
      rw [scalar_add_value_some_max, hb]
    have hstep : mx0 ≤ (if mx0 < p.1 then p.1 else mx0) := by
      split
      · exact le_of_lt (by assumption)
      · exact le_refl mx0
    exact le_trans hstep (ih _ _ hb1 x hx)

/-- After the sequence, the running minimum bounds every sample from
below. -/
lemma scalar_add_seq_min_bound :
    ∀ (l : List (ℚ × ℤ)) (b : ScalarBuffer) (p : ℚ × ℤ), p ∈ l →
      ∀ x, (scalar_add_seq b l).min = some x → x ≤ p.1 := by
  intro l
  induction l with
  | nil => intro b p hp; exact absurd hp (List.not_mem_nil p)
  | cons q l ih =>
    intro b p hp x hx
    rw [scalar_add_seq_cons] at hx
    rcases List.mem_cons.mp hp with hq | hq
    · subst hq
      have hb1 : (b.add_value (some p.1) p.2 true).min =
          some (match b.min with
                | none => p.1
                | some mn => if p.1 < mn then p.1 else mn) :=
        scalar_add_value_some_min b p.1 p.2
      have hle : (match b.min with
                  | none => p.1
                  | some mn => if p.1 < mn then p.1 else mn) ≤ p.1 := by
        rcases hm : b.min with _ | mn
        · exact le_refl p.1
        · simp only []
          split
          · exact le_refl p.1
          · exact le_of_not_lt (by assumption)
      exact le_trans (scalar_add_seq_min_mono l _ _ hb1 x hx) hle
    · exact ih _ p hq x hx

/-- After the sequence, the running maximum bounds every sample from
above. -/
lemma scalar_add_seq_max_bound :
    ∀ (l : List (ℚ × ℤ)) (b : ScalarBuffer) (p : ℚ × ℤ), p ∈ l →
      ∀ x, (scalar_add_seq b l).max = some x → p.1 ≤ x := by
  intro l
  induction l with
  | nil => intro b p hp; exact absurd hp (List.not_mem_nil p)
  | cons q l ih =>
    intro b p hp x hx
    rw [scalar_add_seq_cons] at hx
    rcases List.mem_cons.mp hp with hq | hq
    · subst hq
      have hb1 : (b.add_value (some p.1) p.2 true).max =
          some (match b.max with
                | none => p.1
                | some mx => if mx < p.1 then p.1 else mx) :=
        scalar_add_value_some_max b p.1 p.2
      have hle : p.1 ≤ (match b.max with
                        | none => p.1
                        | some mx => if mx < p.1 then p.1 else mx) := by
        rcases hm : b.max with _ | mx
        · exact le_refl p.1
        · simp only []
          split
          · exact le_refl p.1
          · exact le_of_not_lt (by assumption)
      exact le_trans hle (scalar_add_seq_max_mono l _ _ hb1 x hx)
    · exact ih _ p hq x hx

/-- A non-empty sequence leaves the running extrema set. -/
lemma scalar_add_seq_isSome :
    ∀ (l : List (ℚ × ℤ)) (b : ScalarBuffer),
      b.min.isSome → b.max.isSome →
      (scalar_add_seq b l).min.isSome ∧ (scalar_add_seq b l).max.isSome := by
  intro l
  induction l with
  | nil => intro b h1 h2; exact ⟨h1, h2⟩
  | cons p l ih =>
    intro b h1 h2
    rw [scalar_add_seq_cons]
    exact ih _ (by rw [scalar_add_value_some_min]; rfl)
      (by rw [scalar_add_value_some_max]; rfl)

lemma scalar_add_seq_isSome_of_ne_nil :
    ∀ (l : List (ℚ × ℤ)) (b : ScalarBuffer), l ≠ [] →
      (scalar_add_seq b l).min.isSome ∧ (scalar_add_seq b l).max.isSome := by
  intro l b hne
  rcases l with _ | ⟨p, l⟩
  · exact absurd rfl hne
  · rw [scalar_add_seq_cons]
    exact scalar_add_seq_isSome l _ (by rw [scalar_add_value_some_min]; rfl)
      (by rw [scalar_add_value_some_max]; rfl)

set_option maxHeartbeats 1000000 in
/-- Closed form of `VectorBuffer.add_value` on a sample with non-`None`
magnitude and arbitrary direction (with `hilo=True`); every field absent
from this record update is inherited unchanged. -/
lemma vector_add_value_mag_eq (cosd sind : ℚ → ℚ) (b : VectorBuffer)
    (m : ℚ) (d : Option ℚ) (ts : ℤ) :
    VectorBuffer.add_value cosd sind b (some m, d) ts true =
      { b with
        last := (match b.lasttime with
                 | none => some ((some m, d) : VectorTuple)
                 | some lt =>
                   if lt ≤ ts then some ((some m, d) : VectorTuple)
                   else b.last),
        lasttime := (match b.lasttime with
                     | none => some ts
                     | some lt => if lt ≤ ts then some ts else b.lasttime),
        min := some (match b.min with
                     | none => m
                     | some mn => if m < mn then m else mn),
        mintime := (match b.min with
                    | none => some ts
                    | some mn => if m < mn then some ts else b.mintime),
        max := some (match b.max with
                     | none => m
                     | some mx => if mx < m then m else mx),
        max_dir := (match b.max with
                    | none => d
                    | some mx => if mx < m then d else b.max_dir),
        maxtime := (match b.max with
                    | none => some ts
                    | some mx => if mx < m then some ts else b.maxtime),
        sum := b.sum + m,
        xsum := (match d with
                 | none => b.xsum
                 | some dd => b.xsum + m * cosd (90 - dd)),
        ysum := (match d with
                 | none => b.ysum
                 | some dd => b.ysum + m * sind (90 - dd)),
        sumtime := (match b.lasttime with
                    | none => b.sumtime
                    | some lt =>
                      if lt = 0 then b.sumtime
                      else b.sumtime + ((ts - lt : ℤ) : ℚ)),
        count := b.count + 1,
        history_full :=
          if b.use_history && d.isSome then
            (trim_history (b.history ++ [(((some m, d) : VectorTuple), ts)])
              ts).1
          else b.history_full,
        history :=
          if b.use_history && d.isSome then
            (trim_history (b.history ++ [(((some m, d) : VectorTuple), ts)])
              ts).2
          else b.history } := by
  obtain ⟨bu, bl, blt, buh, bhf, bh, bmn, bmnt, bmx, bmxd, bmxt, bs, bxs,
    bys, bst, bc⟩ := b
  rcases bmn with _ | mn <;> rcases bmx with _ | mx <;>
    rcases blt with _ | lt <;> rcases d with _ | dd <;> cases buh <;>
    (first
      | (by_cases h1 : m < mn <;> by_cases h2 : mx < m <;>
          by_cases h3 : lt = 0 <;> by_cases h4 : lt ≤ ts <;>
          simp [VectorBuffer.add_value, h1, h2, h3, h4])
      | (by_cases h1 : m < mn <;> by_cases h2 : mx < m <;>
          simp [VectorBuffer.add_value, h1, h2])
      | (by_cases h1 : m < mn <;> by_cases h3 : lt = 0 <;>
          by_cases h4 : lt ≤ ts <;> simp [VectorBuffer.add_value, h1, h3, h4])
      | (by_cases h2 : mx < m <;> by_cases h3 : lt = 0 <;>
          by_cases h4 : lt ≤ ts <;> simp [VectorBuffer.add_value, h2, h3, h4])
      | (by_cases h1 : m < mn <;> simp [VectorBuffer.add_value, h1])
      | (by_cases h2 : mx < m <;> simp [VectorBuffer.add_value, h2])
      | (by_cases h3 : lt = 0 <;> by_cases h4 : lt ≤ ts <;>
          simp [VectorBuffer.add_value, h3, h4])
      | simp [VectorBuffer.add_value]) <;>
    (try (split_ifs <;> simp_all))

/-- `VectorBuffer.add_value` with a non-`None` magnitude increments
`count` whatever the direction. -/
lemma vector_add_value_mag_count (cosd sind : ℚ → ℚ) (b : VectorBuffer)
    (m : ℚ) (d : Option ℚ) (ts : ℤ) :
    (VectorBuffer.add_value cosd sind b (some m, d) ts true).count =
      b.count + 1 := by
  rw [vector_add_value_mag_eq]

/-- The running minimum after a non-`None`-magnitude
`VectorBuffer.add_value`. -/
lemma vector_add_value_mag_min (cosd sind : ℚ → ℚ) (b : VectorBuffer)
    (m : ℚ) (d : Option ℚ) (ts : ℤ) :
    (VectorBuffer.add_value cosd sind b (some m, d) ts true).min =
      some (match b.min with
            | none => m
            | some mn => if m < mn then m else mn) := by
  rw [vector_add_value_mag_eq]

/-- The running maximum after a non-`None`-magnitude
`VectorBuffer.add_value`. -/
lemma vector_add_value_mag_max (cosd sind : ℚ → ℚ) (b : VectorBuffer)
    (m : ℚ) (d : Option ℚ) (ts : ℤ) :
    (VectorBuffer.add_value cosd sind b (some m, d) ts true).max =
      some (match b.max with
            | none => m
            | some mx => if mx < m then m else mx) := by
  rw [vector_add_value_mag_eq]

lemma vector_add_seq_nil (cosd sind : ℚ → ℚ) (b : VectorBuffer) :
    vector_add_seq cosd sind b [] = b := rfl

lemma vector_add_seq_cons (cosd sind : ℚ → ℚ) (b : VectorBuffer)
    (q : ℚ × Option ℚ × ℤ) (l : List (ℚ × Option ℚ × ℤ)) :
    vector_add_seq cosd sind b (q :: l) =
      vector_add_seq cosd sind
        (b.add_value cosd sind (some q.1, q.2.1) q.2.2 true) l := rfl

/-- Each call of the vector sequence increments `count` by one. -/
lemma vector_add_seq_count (cosd sind : ℚ → ℚ) :
    ∀ (l : List (ℚ × Option ℚ × ℤ)) (b : VectorBuffer),
      (vector_add_seq cosd sind b l).count = b.count + l.length := by
  intro l
  induction l with
  | nil => intro b; simp [vector_add_seq_nil]
  | cons q l ih =>
    intro b
    rw [vector_add_seq_cons, ih, vector_add_value_mag_count]
    simp
    omega

/-- Folding more vector samples can only decrease an existing running
minimum magnitude. -/
lemma vector_add_seq_min_mono (cosd sind : ℚ → ℚ) :
    ∀ (l : List (ℚ × Option ℚ × ℤ)) (b : VectorBuffer) (mn0 : ℚ),
      b.min = some mn0 →
      ∀ x, (vector_add_seq cosd sind b l).min = some x → x ≤ mn0 := by
  intro l
  induction l with
  | nil =>
    intro b mn0 hb x hx
    rw [vector_add_seq_nil] at hx
    rw [hb] at hx
    exact le_of_eq (Option.some_injective _ hx).symm
  | cons q l ih =>
    intro b mn0 hb x hx
    rw [vector_add_seq_cons] at hx
    have hb1 : (b.add_value cosd sind (some q.1, q.2.1) q.2.2 true).min =
        some (if q.1 < mn0 then q.1 else mn0) := by
      rw [vector_add_value_mag_min, hb]
    have hstep : (if q.1 < mn0 then q.1 else mn0) ≤ mn0 := by
      split
      · exact le_of_lt (by assumption)
      · exact le_refl mn0
    exact le_trans (ih _ _ hb1 x hx) hstep

/-- Folding more vector samples can only increase an existing running
maximum magnitude. -/
lemma vector_add_seq_max_mono (cosd sind : ℚ → ℚ) :
    ∀ (l : List (ℚ × Option ℚ × ℤ)) (b : VectorBuffer) (mx0 : ℚ),
      b.max = some mx0 →
      ∀ x, (vector_add_seq cosd sind b l).max = some x → mx0 ≤ x := by
  intro l
  induction l with
  | nil =>
    intro b mx0 hb x hx
    rw [vector_add_seq_nil] at hx
    rw [hb] at hx
    exact le_of_eq (Option.some_injective _ hx)
  | cons q l ih =>
    intro b mx0 hb x hx
    rw [vector_add_seq_cons] at hx
    have hb1 : (b.add_value cosd sind (some q.1, q.2.1) q.2.2 true).max =
        some (if mx0 < q.1 then q.1 else mx0) := by
      rw [vector_add_value_mag_max, hb]
    have hstep : mx0 ≤ (if mx0 < q.1 then q.1 else mx0) := by
      split
      · exact le_of_lt (by assumption)
      · exact le_refl mx0
    exact le_trans hstep (ih _ _ hb1 x hx)

/-- After the vector sequence, the running minimum bounds every sample
magnitude from below. -/
lemma vector_add_seq_min_bound (cosd sind : ℚ → ℚ) :
    ∀ (l : List (ℚ × Option ℚ × ℤ)) (b : VectorBuffer)
      (q : ℚ × Option ℚ × ℤ), q ∈ l →
      ∀ x, (vector_add_seq cosd sind b l).min = some x → x ≤ q.1 := by
  intro l
  induction l with
  | nil => intro b q hq; exact absurd hq (List.not_mem_nil q)
  | cons r l ih =>
    intro b q hq x hx
    rw [vector_add_seq_cons] at hx
    rcases List.mem_cons.mp hq with hr | hr
    · subst hr
      have hb1 : (b.add_value cosd sind (some q.1, q.2.1) q.2.2 true).min =
          some (match b.min with
                | none => q.1
                | some mn => if q.1 < mn then q.1 else mn) :=
        vector_add_value_mag_min cosd sind b q.1 q.2.1 q.2.2
      have hle : (match b.min with
                  | none => q.1
                  | some mn => if q.1 < mn then q.1 else mn) ≤ q.1 := by
        rcases hm : b.min with _ | mn
        · exact le_refl q.1
        · simp only []
          split
          · exact le_refl q.1
          · exact le_of_not_lt (by assumption)
      exact le_trans (vector_add_seq_min_mono cosd sind l _ _ hb1 x hx) hle
    · exact ih _ q hr x hx

/-- After the vector sequence, the running maximum bounds every sample
magnitude from above. -/
lemma vector_add_seq_max_bound (cosd sind : ℚ → ℚ) :
    ∀ (l : List (ℚ × Option ℚ × ℤ)) (b : VectorBuffer)
      (q : ℚ × Option ℚ × ℤ), q ∈ l →
      ∀ x, (vector_add_seq cosd sind b l).max = some x → q.1 ≤ x := by
  intro l
  induction l with
  | nil => intro b q hq; exact absurd hq (List.not_mem_nil q)
  | cons r l ih =>
    intro b q hq x hx
    rw [vector_add_seq_cons] at hx
    rcases List.mem_cons.mp hq with hr | hr
    · subst hr
      have hb1 : (b.add_value cosd sind (some q.1, q.2.1) q.2.2 true).max =
          some (match b.max with
                | none => q.1
                | some mx => if mx < q.1 then q.1 else mx) :=
        vector_add_value_mag_max cosd sind b q.1 q.2.1 q.2.2
      have hle : q.1 ≤ (match b.max with
                        | none => q.1
                        | some mx => if mx < q.1 then q.1 else mx) := by
        rcases hm : b.max with _ | mx
        · exact le_refl q.1
        · simp only []
          split
          · exact le_refl q.1
          · exact le_of_not_lt (by assumption)
      exact le_trans hle (vector_add_seq_max_mono cosd sind l _ _ hb1 x hx)
    · exact ih _ q hr x hx

/-- A non-empty vector sequence leaves the running extrema set. -/
lemma vector_add_seq_isSome (cosd sind : ℚ → ℚ) :
    ∀ (l : List (ℚ × Option ℚ × ℤ)) (b : VectorBuffer),
      b.min.isSome → b.max.isSome →
      (vector_add_seq cosd sind b l).min.isSome ∧
      (vector_add_seq cosd sind b l).max.isSome := by
  intro l
  induction l with
  | nil => intro b h1 h2; exact ⟨h1, h2⟩
  | cons q l ih =>
    intro b h1 h2
    rw [vector_add_seq_cons]
    exact ih _ (by rw [vector_add_value_mag_min]; rfl)
      (by rw [vector_add_value_mag_max]; rfl)

lemma vector_add_seq_isSome_of_ne_nil (cosd sind : ℚ → ℚ) :
    ∀ (l : List (ℚ × Option ℚ × ℤ)) (b : VectorBuffer), l ≠ [] →
      (vector_add_seq cosd sind b l).min.isSome ∧
      (vector_add_seq cosd sind b l).max.isSome := by
  intro l b hne
  rcases l with _ | ⟨q, l⟩
  · exact absurd rfl hne
  · rw [vector_add_seq_cons]
    exact vector_add_seq_isSome cosd sind l _
      (by rw [vector_add_value_mag_min]; rfl)
      (by rw [vector_add_value_mag_max]; rfl)

/-- C3: for every finite sequence of `add_value` calls with non-`None`
values on a fresh accumulator (scalar values, or vector samples with
non-`None` magnitude and arbitrary direction) and any timestamps, after
the sequence `min` is `≤` every added value, `max` is `≥` every added
value, and `count` equals the number of calls. -/
theorem add_value_sequence_minmax_count (units : Option Nat) (hist : Bool)
    (cosd sind : ℚ → ℚ) (l : List (ℚ × ℤ))
    (lv : List (ℚ × Option ℚ × ℤ)) :
    ((scalar_add_seq (ScalarBuffer.fresh units hist) l).count = l.length ∧
     ∀ p ∈ l, ∃ mn mx,
       (scalar_add_seq (ScalarBuffer.fresh units hist) l).min = some mn ∧
       (scalar_add_seq (ScalarBuffer.fresh units hist) l).max = some mx ∧
       mn ≤ p.1 ∧ p.1 ≤ mx) ∧
    ((vector_add_seq cosd sind (VectorBuffer.fresh units hist) lv).count =
       lv.length ∧
     ∀ q ∈ lv, ∃ mn mx,
       (vector_add_seq cosd sind (VectorBuffer.fresh units hist) lv).min =
         some mn ∧
       (vector_add_seq cosd sind (VectorBuffer.fresh units hist) lv).max =
         some mx ∧
       mn ≤ q.1 ∧ q.1 ≤ mx) := by
  constructor
  · constructor
    · rw [scalar_add_seq_count]
      simp [ScalarBuffer.fresh]
    · intro p hp
      have hne : l ≠ [] := List.ne_nil_of_mem hp
      obtain ⟨h1, h2⟩ :=
        scalar_add_seq_isSome_of_ne_nil l (ScalarBuffer.fresh units hist) hne
      obtain ⟨mn, hmn⟩ := Option.isSome_iff_exists.mp h1
      obtain ⟨mx, hmx⟩ := Option.isSome_iff_exists.mp h2
      exact ⟨mn, mx, hmn, hmx,
        scalar_add_seq_min_bound l _ p hp mn hmn,
        scalar_add_seq_max_bound l _ p hp mx hmx⟩
  · constructor
    · rw [vector_add_seq_count]
      simp [VectorBuffer.fresh]
    · intro q hq
      have hne : lv ≠ [] := List.ne_nil_of_mem hq
      obtain ⟨h1, h2⟩ := vector_add_seq_isSome_of_ne_nil cosd sind lv
        (VectorBuffer.fresh units hist) hne
      obtain ⟨mn, hmn⟩ := Option.isSome_iff_exists.mp h1
      obtain ⟨mx, hmx⟩ := Option.isSome_iff_exists.mp h2
      exact ⟨mn, mx, hmn, hmx,
        vector_add_seq_min_bound cosd sind lv _ q hq mn hmn,
        vector_add_seq_max_bound cosd sind lv _ q hq mx hmx⟩

/-- Witness for `add_value_sequence_minmax_count`: a concrete three-sample
scalar sequence and a one-sample vector sequence. -/
theorem add_value_sequence_minmax_count_inst :
    (scalar_add_seq (ScalarBuffer.fresh none true)
      [(3, 0), (1, 5), (2, 7)]).count = 3 ∧
    (∃ mn mx,
      (scalar_add_seq (ScalarBuffer.fresh none true)
        [(3, 0), (1, 5), (2, 7)]).min = some mn ∧
      (scalar_add_seq (ScalarBuffer.fresh none true)
        [(3, 0), (1, 5), (2, 7)]).max = some mx ∧
      mn ≤ 3 ∧ 3 ≤ mx) ∧
    (vector_add_seq zeroTrig zeroTrig (VectorBuffer.fresh none true)
      [(2, some 90, 0)]).count = 1 ∧
    (∃ mn mx,
      (vector_add_seq zeroTrig zeroTrig (VectorBuffer.fresh none true)
        [(2, some 90, 0)]).min = some mn ∧
      (vector_add_seq zeroTrig zeroTrig (VectorBuffer.fresh none true)
        [(2, some 90, 0)]).max = some mx ∧
      mn ≤ 2 ∧ 2 ≤ mx) := by
  obtain ⟨⟨hc, hb⟩, ⟨hvc, hvb⟩⟩ :=
    add_value_sequence_minmax_count none true zeroTrig zeroTrig
      [(3, 0), (1, 5), (2, 7)] [(2, some 90, 0)]
  refine ⟨hc, ?_, hvc, ?_⟩
  · exact hb ((3 : ℚ), (0 : ℤ)) (by decide)
  · exact hvb ((2 : ℚ), some (90 : ℚ), (0 : ℤ)) (by decide)

lemma alookup_fields_conv (cv : Nat → Nat → String → ℚ → ℚ) (a b : Nat) :
    ∀ (l : List (String × Option ℚ)) (f : String),
      alookup (l.map (fun kv => (kv.1, kv.2.map (cv a b kv.1)))) f =
        (alookup l f).map (fun ov => ov.map (cv a b f)) := by
  intro l
  induction l with
  | nil => intro f; simp [alookup]
  | cons kv rest ih =>
    intro f
    by_cases hk : kv.1 = f
    · simp [alookup, hk]
    · simp [alookup, hk, ih]

lemma map_fst_fields_conv (cv : Nat → Nat → String → ℚ → ℚ) (a b : Nat)
    (l : List (String × Option ℚ)) :
    (l.map (fun kv => (kv.1, kv.2.map (cv a b kv.1)))).map Prod.fst =
      l.map Prod.fst := by
  induction l with
  | nil => rfl
  | cons kv rest ih => simp [ih]

/-- The caching fold does not touch fields the packet does not carry. -/
lemma cache_fold_not_mem (ts : ℤ) :
    ∀ (l : List (String × Option ℚ)) (acc : List (String × (ℚ × ℤ)))
      (f : String), f ∉ l.map Prod.fst →
      alookup (l.foldl (cache_one ts) acc) f = alookup acc f := by
  intro l
  induction l with
  | nil => intro acc f _; rfl
  | cons kv rest ih =>
    intro acc f hf
    simp only [List.map_cons, List.mem_cons] at hf
    push_neg at hf
    rw [List.foldl_cons, ih _ f hf.2]
    unfold cache_one
    rcases hv : kv.2 with _ | w
    · rfl
    · exact alookup_aset_ne _ _ _ _ hf.1

/-- Characterisation of the caching fold on a duplicate-free packet: a
field carried non-`None` is (re)cached at `ts`; a field carried `None` or
absent leaves the cache entry untouched. -/
lemma cache_fold_lookup (ts : ℤ) :
    ∀ (l : List (String × Option ℚ)) (acc : List (String × (ℚ × ℤ)))
      (f : String), (l.map Prod.fst).Nodup →
      alookup (l.foldl (cache_one ts) acc) f =
        (match alookup l f with
         | some (some v) => some (v, ts)
         | some none => alookup acc f
         | none => alookup acc f) := by
  intro l
  induction l with
  | nil => intro acc f _; simp [alookup]
  | cons kv rest ih =>
    intro acc f hnd
    simp only [List.map_cons, List.nodup_cons] at hnd
    rw [List.foldl_cons]
    by_cases hk : kv.1 = f
    · have hnot : f ∉ rest.map Prod.fst := by rw [← hk]; exact hnd.1
      rw [cache_fold_not_mem ts rest _ f hnot]
      unfold cache_one
      rcases hv : kv.2 with _ | w
      · simp [alookup, hk, hv]
      · have hself := alookup_aset_self acc kv.1 (w, ts)
        rw [hk] at hself
        simp [alookup, hk, hv, hself]
    · have hacc : alookup (cache_one ts acc kv) f = alookup acc f := by
        unfold cache_one
        rcases hv : kv.2 with _ | w
        · rfl
        · exact alookup_aset_ne _ _ _ _ (fun hh => hk hh.symm)
      rw [ih _ f hnd.2, hacc]
      have hl : alookup (kv :: rest) f = alookup rest f := by
        simp [alookup, hk]
      rw [hl]

/-- `CachedPacket.update` with a bound `std_unit_system` attribute always
returns normally, with the stated cache and unit system. -/
lemma cachedPacket_update_ok (convVal : Nat → Nat → String → ℚ → ℚ)
    (c : CachedPacket) (p : Packet) (ts : ℤ) (u0 : Option Nat)
    (hstd : c.std_unit_system = some u0) :
    c.update convVal p ts = .ok
      { cache := (to_std_system convVal p
          (u0.getD p.usUnits)).fields.foldl (cache_one ts) c.cache,
        std_unit_system := some (some (u0.getD p.usUnits)) } := by
  unfold CachedPacket.update
  split
  · rename_i heq
    rw [hstd] at heq
    cases heq
  · rename_i u1 heq
    rw [hstd] at heq
    injection heq with h
    subst h
    cases u0 <;> rfl

lemma to_std_system_self (convVal : Nat → Nat → String → ℚ → ℚ)
    (p : Packet) (u : Nat) (h : p.usUnits = u) :
    to_std_system convVal p u = p := by
  unfold to_std_system
  rw [if_pos h]

lemma to_std_system_ne_fields (convVal : Nat → Nat → String → ℚ → ℚ)
    (p : Packet) (u : Nat) (h : ¬ p.usUnits = u) :
    (to_std_system convVal p u).fields =
      p.fields.map
        (fun kv => (kv.1, kv.2.map (convVal p.usUnits u kv.1))) := by
  unfold to_std_system
  rw [if_neg h]

/-- C7: for every cache state whose `std_unit_system` attribute is bound
and every `update(packet, ts)` call on a packet without duplicate fields:
a field carried with a `None` value (or not carried at all) never
overwrites the existing cached entry for that field, while a field carried
with a non-`None` value always overwrites the entry with the (converted)
value timestamped `ts`, regardless of the old entry's age; when the packet
already uses the cache's unit system (or the cache adopts it on this
call), the stored value is exactly the packet's value. -/
theorem cachedPacket_update_null_vs_nonnull
    (convVal : Nat → Nat → String → ℚ → ℚ) (c : CachedPacket) (p : Packet)
    (ts : ℤ) (u0 : Option Nat) (f : String)
    (hstd : c.std_unit_system = some u0)
    (hnd : (p.fields.map Prod.fst).Nodup) :
    ∃ c2, c.update convVal p ts = .ok c2 ∧
      (alookup p.fields f = some none →
        alookup c2.cache f = alookup c.cache f) ∧
      (alookup p.fields f = none →
        alookup c2.cache f = alookup c.cache f) ∧
      (∀ v, alookup p.fields f = some (some v) →
        ∃ w, alookup c2.cache f = some (w, ts) ∧
          (u0 = none ∨ u0 = some p.usUnits → w = v)) := by
  rw [cachedPacket_update_ok convVal c p ts u0 hstd]
  refine ⟨_, rfl, ?_, ?_, ?_⟩
  case _ =>
    intro hnull
    by_cases hpu : p.usUnits = u0.getD p.usUnits
    · rw [to_std_system_self convVal p _ hpu]
      rw [cache_fold_lookup ts p.fields c.cache f hnd, hnull]
    · rw [to_std_system_ne_fields convVal p _ hpu]
      rw [cache_fold_lookup ts _ c.cache f
        (by rw [map_fst_fields_conv]; exact hnd)]
      rw [alookup_fields_conv convVal p.usUnits _ p.fields f, hnull]
      rfl
  case _ =>
    intro hnone
    by_cases hpu : p.usUnits = u0.getD p.usUnits
    · rw [to_std_system_self convVal p _ hpu]
      rw [cache_fold_lookup ts p.fields c.cache f hnd, hnone]
    · rw [to_std_system_ne_fields convVal p _ hpu]
      rw [cache_fold_lookup ts _ c.cache f
        (by rw [map_fst_fields_conv]; exact hnd)]
      rw [alookup_fields_conv convVal p.usUnits _ p.fields f, hnone]
      rfl
  case _ =>
    intro v hsome
    by_cases hpu : p.usUnits = u0.getD p.usUnits
    · rw [to_std_system_self convVal p _ hpu]
      rw [cache_fold_lookup ts p.fields c.cache f hnd, hsome]
      exact ⟨v, rfl, fun _ => rfl⟩
    · rw [to_std_system_ne_fields convVal p _ hpu]
      rw [cache_fold_lookup ts _ c.cache f
        (by rw [map_fst_fields_conv]; exact hnd)]
      rw [alookup_fields_conv convVal p.usUnits _ p.fields f, hsome]
      refine ⟨convVal p.usUnits _ f v, rfl, ?_⟩
      intro hcase
      exfalso
      apply hpu
      rcases hcase with hc1 | hc1 <;> rw [hc1] <;> rfl

/-- Witness for `cachedPacket_update_null_vs_nonnull`: updating a cache
holding `outTemp = (5, 100)` with a packet carrying `outTemp = None`
leaves the cached entry intact. -/
theorem cachedPacket_update_null_vs_nonnull_inst :
    ∃ c2, wCache.update idConv wCachePacket 900 = .ok c2 ∧
      alookup c2.cache "outTemp" = some (5, 100) := by
  obtain ⟨c2, h1, h2, _, _⟩ :=
    cachedPacket_update_null_vs_nonnull idConv wCache wCachePacket 900
      (some 1) "outTemp" rfl (by decide)
  exact ⟨c2, h1, (h2 (by decide)).trans (by decide)⟩

/-- `day_reset` is idempotent on buffer entries. -/
lemma ObsBuf.day_reset_idem (e : ObsBuf) : e.day_reset.day_reset = e.day_reset := by
  cases e <;> rfl

/-- The reset loop leaves observations outside the manifest untouched. -/
lemma reset_list_not_mem :
    ∀ (ms : List String) (es es2 : List (String × ObsBuf)) (o : String),
      reset_list es ms = .ok es2 → o ∉ ms →
      alookup es2 o = alookup es o := by
  intro ms
  induction ms with
  | nil =>
    intro es es2 o h _
    injection h with h2
    rw [h2]
  | cons obs rest ih =>
    intro es es2 o h ho
    simp only [List.mem_cons] at ho
    push_neg at ho
    unfold reset_list at h
    rcases halk : alookup es obs with _ | e0
    · rw [halk] at h; cases h
    · rw [halk] at h
      rw [ih _ _ o h ho.2]
      exact alookup_aset_ne _ _ _ _ ho.1

/-- The reset loop preserves entries that are fixed points of
`day_reset`. -/
lemma reset_list_fixed :
    ∀ (ms : List String) (es es2 : List (String × ObsBuf)) (o : String)
      (e : ObsBuf),
      reset_list es ms = .ok es2 → alookup es o = some e →
      e.day_reset = e → alookup es2 o = some e := by
  intro ms
  induction ms with
  | nil =>
    intro es es2 o e h he _
    injection h with h2
    rw [h2] at he
    exact he
  | cons obs rest ih =>
    intro es es2 o e h he hfix
    unfold reset_list at h
    rcases halk : alookup es obs with _ | e0
    · rw [halk] at h; cases h
    · rw [halk] at h
      by_cases ho : obs = o
      · subst ho
        have he0 : e0 = e := by
          rw [halk] at he
          exact Option.some_injective _ he
        subst he0
        have hset : alookup (aset es obs e0.day_reset) obs = some e0 := by
          rw [hfix]
          exact alookup_aset_self es obs e0
        exact ih _ _ obs e0 h hset hfix
      · have hset : alookup (aset es obs e0.day_reset) o = some e := by
          rw [alookup_aset_ne _ _ _ _ (fun hh => ho hh.symm)]
          exact he
        exact ih _ _ o e h hset hfix

/-- The reset loop applies `day_reset` to every manifest entry. -/
lemma reset_list_mem :
    ∀ (ms : List String) (es es2 : List (String × ObsBuf)) (o : String)
      (e : ObsBuf),
      reset_list es ms = .ok es2 → o ∈ ms → alookup es o = some e →
      alookup es2 o = some e.day_reset := by
  intro ms
  induction ms with
  | nil =>
    intro es es2 o e _ ho
    exact absurd ho (List.not_mem_nil o)
  | cons obs rest ih =>
    intro es es2 o e h ho he
    unfold reset_list at h
    rcases halk : alookup es obs with _ | e0
    · rw [halk] at h; cases h
    · rw [halk] at h
      by_cases hoo : obs = o
      · subst hoo
        have he0 : e0 = e := by
          rw [halk] at he
          exact Option.some_injective _ he
        subst he0
        have hset : alookup (aset es obs e0.day_reset) obs =
            some e0.day_reset := alookup_aset_self es obs e0.day_reset
        exact reset_list_fixed rest _ _ obs e0.day_reset h hset
          (ObsBuf.day_reset_idem e0)
      · rcases List.mem_cons.mp ho with hc | hc
        · exact absurd hc.symm hoo
        · have hset : alookup (aset es obs e0.day_reset) o = some e := by
            rw [alookup_aset_ne _ _ _ _ (fun hh => hoo hh.symm)]
            exact he
          exact ih _ _ o e h hc hset

/-- Decomposition of a successful `start_of_day_reset`: only `entries`
changes, via `reset_list` over the manifest. -/
lemma start_of_day_reset_ok (b b2 : Buffer)
    (h : b.start_of_day_reset = .ok b2) :
    ∃ es2, reset_list b.entries b.manifest = .ok es2 ∧
      b2 = { b with entries := es2 } := by
  unfold Buffer.start_of_day_reset at h
  rcases hres : reset_list b.entries b.manifest with er | es2
  · rw [hres] at h; cases h
  · rw [hres] at h
    injection h with h2
    exact ⟨es2, rfl, h2.symm⟩

/-- Frame property of `Buffer.add_value`: on success, `timespan`,
`manifest`, `std_unit_system` and `last_windSpeed_ts` are unchanged and
only the entry of `obs` itself can differ. -/
lemma buffer_add_value_frame (convVal : Nat → Nat → String → ℚ → ℚ)
    (b : Buffer) (p : Packet) (obs : String) (b2 : Buffer)
    (h : Buffer.add_value convVal b p obs = .ok b2) :
    b2.timespan = b.timespan ∧ b2.manifest = b.manifest ∧
    b2.std_unit_system = b.std_unit_system ∧
    b2.last_windSpeed_ts = b.last_windSpeed_ts ∧
    ∀ x, x ≠ obs → alookup b2.entries x = alookup b.entries x := by
  unfold Buffer.add_value at h
  simp only [Bind.bind, Except.bind, Pure.pure, Except.pure] at h
  repeat' split at h
  all_goals
    first
      | (exact Except.noConfusion h)
      | (injection h with h2
         subst h2
         refine ⟨rfl, rfl, rfl, rfl, fun x hx => ?_⟩
         simp [alookup_aset_ne _ _ _ _ hx])

/-- Inversion of a successful `Except` bind. -/
lemma except_bind_ok_iff {ε α β : Type} (x : Except ε α)
    (f : α → Except ε β) (r : β) :
    (x >>= f = Except.ok r) ↔ ∃ a, x = Except.ok a ∧ f a = Except.ok r := by
  cases x <;> simp [Bind.bind, Except.bind]

set_option maxHeartbeats 1000000 in
/-- Frame property of `Buffer.add_wind_value`: on success, `timespan`,
`manifest` and `std_unit_system` are unchanged and only the entries of
`obs`, `windrun` and `wind` can differ. -/
lemma buffer_add_wind_value_frame (convVal : Nat → Nat → String → ℚ → ℚ)
    (cosd sind : ℚ → ℚ) (b : Buffer) (p : Packet) (obs : String)
    (b2 : Buffer)
    (h : Buffer.add_wind_value convVal cosd sind b p obs = .ok b2) :
    b2.timespan = b.timespan ∧ b2.manifest = b.manifest ∧
    b2.std_unit_system = b.std_unit_system ∧
    ∀ x, x ≠ obs → x ≠ "windrun" → x ≠ "wind" →
      alookup b2.entries x = alookup b.entries x := by
  unfold Buffer.add_wind_value at h
  rw [except_bind_ok_iff] at h
  obtain ⟨b1, hav, h⟩ := h
  obtain ⟨ht1, hm1, hs1, _, hEnt⟩ :=
    buffer_add_value_frame convVal b p obs b1 hav
  simp only [Bind.bind, Except.bind, Pure.pure, Except.pure] at h
  repeat' split at h
  all_goals
    first
      | (exact Except.noConfusion h)
      | (injection h with h2
         subst h2
         refine ⟨by simp [ht1], by simp [hm1], by simp [hs1],
           fun x hxo hxr hxw => ?_⟩
         simp [alookup_aset_ne _ _ _ _ hxo, alookup_aset_ne _ _ _ _ hxr,
           alookup_aset_ne _ _ _ _ hxw, hEnt x hxo])

/-- Frame property of the per-observation dispatch loop: on success,
`timespan` and `manifest` are unchanged and only the entries of the
dispatched observations, `windrun` and `wind` can differ. -/
lemma add_obs_list_frame (convVal : Nat → Nat → String → ℚ → ℚ)
    (cosd sind : ℚ → ℚ) (p : Packet) :
    ∀ (ms : List String) (b b2 : Buffer),
      Buffer.add_obs_list convVal cosd sind b p ms = .ok b2 →
      b2.timespan = b.timespan ∧ b2.manifest = b.manifest ∧
      ∀ x, x ∉ ms → x ≠ "windrun" → x ≠ "wind" →
        alookup b2.entries x = alookup b.entries x := by
  intro ms
  induction ms with
  | nil =>
    intro b b2 h
    injection h with h2
    subst h2
    exact ⟨rfl, rfl, fun x _ _ _ => rfl⟩
  | cons obs rest ih =>
    intro b b2 h
    unfold Buffer.add_obs_list at h
    have key : ∃ b1, (b1.timespan = b.timespan ∧ b1.manifest = b.manifest ∧
        ∀ x, x ≠ obs → x ≠ "windrun" → x ≠ "wind" →
          alookup b1.entries x = alookup b.entries x) ∧
        Buffer.add_obs_list convVal cosd sind b1 p rest = .ok b2 := by
      by_cases hw : obs = "windSpeed"
      · simp only [if_pos hw] at h
        rw [except_bind_ok_iff] at h
        obtain ⟨b1, hstep, h⟩ := h
        obtain ⟨a1, a2, a3, a4⟩ :=
          buffer_add_wind_value_frame convVal cosd sind b p obs b1 hstep
        exact ⟨b1, ⟨a1, a2, a4⟩, h⟩
      · simp only [if_neg hw] at h
        rw [except_bind_ok_iff] at h
        obtain ⟨b1, hstep, h⟩ := h
        obtain ⟨a1, a2, a3, a4, a5⟩ :=
          buffer_add_value_frame convVal b p obs b1 hstep
        exact ⟨b1, ⟨a1, a2, fun x hx _ _ => a5 x hx⟩, h⟩
    obtain ⟨b1, hstep2, h⟩ := key
    obtain ⟨ht2, hm2, hEnt2⟩ := ih b1 b2 h
    refine ⟨ht2.trans hstep2.1, hm2.trans hstep2.2.1, fun x hx hxr hxw => ?_⟩
    simp only [List.mem_cons] at hx
    push_neg at hx
    exact (hEnt2 x hx.2 hxr hxw).trans (hstep2.2.2 x hx.1 hxr hxw)

/-- Unit conversion preserves the packet's field names. -/
lemma to_std_system_keys (convVal : Nat → Nat → String → ℚ → ℚ)
    (p : Packet) (u : Nat) :
    (to_std_system convVal p u).fields.map Prod.fst =
      p.fields.map Prod.fst := by
  unfold to_std_system
  split
  · rfl
  · exact map_fst_fields_conv convVal p.usUnits u p.fields

set_option maxHeartbeats 1000000 in
/-- C1 (amended): when a packet's timestamp falls outside the buffer's
day timespan, `add_packet` runs `start_of_day_reset` — every manifest
observation's accumulator is day-reset — before dispatching the packet's
values, but the `timespan` attribute is *not* advanced to the new day (it
is never reassigned anywhere).  Consequently a second packet inside the
new day is again outside the unchanged timespan and triggers a further
reset, contrary to the original claim. -/
theorem add_packet_outside_span_reset_no_advance
    (convVal : Nat → Nat → String → ℚ → ℚ) (cosd sind : ℚ → ℚ)
    (b : Buffer) (p : Packet) (dt : ℤ) (b2 : Buffer)
    (hdt : p.dateTime = some dt)
    (hout : includesArchiveTime b.timespan dt = false)
    (h : Buffer.add_packet convVal cosd sind b p = .ok b2) :
    b2.timespan = b.timespan ∧
    ∀ obs e, obs ∈ b.manifest → alookup b.entries obs = some e →
      obs ∉ p.fields.map Prod.fst → obs ≠ "windrun" → obs ≠ "wind" →
      alookup b2.entries obs = some e.day_reset := by
  unfold Buffer.add_packet at h
  rw [hdt] at h
  simp only [hout, Bool.not_false, if_true] at h
  rw [except_bind_ok_iff] at h
  obtain ⟨b1, hres, h⟩ := h
  obtain ⟨es2, hlist, hb1⟩ := start_of_day_reset_ok b b1 hres
  subst hb1
  obtain ⟨ht3, hm3, hEnt3⟩ := add_obs_list_frame convVal cosd sind _ _ _ _ h
  constructor
  · rw [ht3]
    rcases hstd : b.std_unit_system with _ | uu <;> simp [hstd]
  · intro obs e hman he hnf hnr hnw
    have hreset : alookup es2 obs = some e.day_reset :=
      reset_list_mem b.manifest b.entries es2 obs e hlist hman he
    have hnf2 : obs ∉
        ((to_std_system convVal p
          (match (if ({ b with entries := es2 } :
              Buffer).std_unit_system.isNone then
            { { b with entries := es2 } with
                std_unit_system := some p.usUnits }
          else { b with entries := es2 }).std_unit_system with
           | some u => u
           | none => p.usUnits)).fields.map Prod.fst).filter
            (fun f => decide (f ∈ b.manifest)) := by
      intro hmem
      exact hnf (by
        have := List.mem_of_mem_filter hmem
        rwa [to_std_system_keys] at this)
    have := hEnt3 obs ?_ hnr hnw
    · rw [this]
      rcases hstd : b.std_unit_system with _ | uu <;>
        simp [hstd] <;> exact hreset
    · rcases hstd : b.std_unit_system with _ | uu <;>
        simp only [hstd] at hnf2 ⊢ <;>
        simpa using hnf2

/-- C1 counterexample: `cexBuffer` covers the day `(0, 86400]` and holds a
fresh `outTemp` accumulator.  Feeding `cexPacket1` (timestamp 90000,
outside the day) resets and accumulates it (`count = 1`), but the
resulting timespan is still `(0, 86400)` — not the new day
`(86400, 172800)` the claim requires.  Feeding `cexPacket2` (timestamp
90060, inside the same new day) therefore triggers *another* reset: the
final `outTemp` accumulator has `count = 1` (only the
second packet's value counted), where the claim's "no further reset has occurred"
would give `count = 2`. -/
theorem add_packet_second_day_packet_resets_again :
    timespan_of
      (Buffer.add_packet idConv zeroTrig zeroTrig cexBuffer cexPacket1) =
      some (0, 86400) ∧
    ¬ (timespan_of
      (Buffer.add_packet idConv zeroTrig zeroTrig cexBuffer cexPacket1) =
      some (86400, 172800)) ∧
    scalar_count_of
      ((Buffer.add_packet idConv zeroTrig zeroTrig cexBuffer
        cexPacket1).bind
        (fun b1 => Buffer.add_packet idConv zeroTrig zeroTrig b1
          cexPacket2)) "outTemp" = some 1 ∧
    ¬ (scalar_count_of
      ((Buffer.add_packet idConv zeroTrig zeroTrig cexBuffer
        cexPacket1).bind
        (fun b1 => Buffer.add_packet idConv zeroTrig zeroTrig b1
          cexPacket2)) "outTemp" = some 2) := by
  have h1 : timespan_of
      (Buffer.add_packet idConv zeroTrig zeroTrig cexBuffer cexPacket1) =
      some (0, 86400) := rfl
  have h2 : scalar_count_of
      ((Buffer.add_packet idConv zeroTrig zeroTrig cexBuffer
        cexPacket1).bind
        (fun b1 => Buffer.add_packet idConv zeroTrig zeroTrig b1
          cexPacket2)) "outTemp" = some 1 := rfl
  refine ⟨h1, ?_, h2, ?_⟩
  · rw [h1]
    decide
  · rw [h2]
    decide

/-- Witness for `add_packet_outside_span_reset_no_advance`: a concrete
two-observation buffer fed a packet outside its day span keeps its old
timespan and has its untouched `barometer` accumulator day-reset. -/
theorem add_packet_outside_span_reset_no_advance_inst :
    wRes.timespan = (0, 86400) ∧
    alookup wRes.entries "barometer" =
      some ((ObsBuf.scalar wBarometer).day_reset) := by
  have h3 : Buffer.add_packet idConv zeroTrig zeroTrig wBuffer wPacket =
      .ok wRes := rfl
  have h := add_packet_outside_span_reset_no_advance idConv zeroTrig
    zeroTrig wBuffer wPacket 90000 wRes rfl (by decide) h3
  exact ⟨h.1.trans rfl,
    h.2 "barometer" (ObsBuf.scalar wBarometer) (by decide) (by decide)
      (by decide) (by decide) (by decide)⟩

end RTD

namespace GaugeData

/-- C9 counterexample: with handlers whose pluggable exporter raises while
everything else succeeds, the exception escapes `process_packet`, so the
`'loop'` branch of `run` logs it as critical and returns — the thread's
loop terminates instead of continuing with the next packet, refuting "a
packet-processing exception never terminates the thread's loop". -/
theorem loop_packet_step_exporter_exception_exits :
    loop_packet_step cexHandlers () = .thread_exit ∧
    loop_packet_step cexHandlers () ≠ .continue_processing :=
  ⟨rfl, by decide⟩

/-- C9 (amended): exceptions raised by the `calculate` and `write_data`
steps of packet processing are caught and logged, the packet is dropped
and the loop continues; but an exception raised elsewhere while processing
the packet — the lost-contact check or the exporter — escapes
`process_packet` and terminates the thread's loop. -/
theorem packet_calc_write_errors_nonfatal {P D : Type}
    (H : PacketHandlers P D) (p : P) :
    (∀ e fl, H.get_lost_contact p = .ok fl → H.calculate p = .error e →
      loop_packet_step H p = .continue_processing) ∧
    (∀ d e fl, H.get_lost_contact p = .ok fl → H.calculate p = .ok d →
      H.write_data d = .error e →
      loop_packet_step H p = .continue_processing) ∧
    (∀ e, H.min_interval_ok p = true → H.get_lost_contact p = .error e →
      loop_packet_step H p = .thread_exit) ∧
    (∀ d e fl, H.min_interval_ok p = true → H.get_lost_contact p = .ok fl →
      H.calculate p = .ok d → H.write_data d = .ok () →
      H.has_exporter = true → H.exporter_export d = .error e →
      loop_packet_step H p = .thread_exit) := by
  refine ⟨?_, ?_, ?_, ?_⟩
  · intro e fl hglc hcalc
    unfold loop_packet_step process_packet
    by_cases hm : H.min_interval_ok p
    · simp [hm, hglc, hcalc, Bind.bind, Except.bind, Pure.pure, Except.pure]
    · simp [hm, Pure.pure, Except.pure]
  · intro d e fl hglc hcalc hwrite
    unfold loop_packet_step process_packet
    by_cases hm : H.min_interval_ok p
    · simp [hm, hglc, hcalc, hwrite, Bind.bind, Except.bind, Pure.pure,
        Except.pure]
    · simp [hm, Pure.pure, Except.pure]
  · intro e hm hglc
    unfold loop_packet_step process_packet
    simp [hm, hglc, Bind.bind, Except.bind]
  · intro d e fl hm hglc hcalc hwrite hexp hexport
    unfold loop_packet_step process_packet
    simp [hm, hglc, hcalc, hwrite, hexp, hexport, Bind.bind, Except.bind]

/-- Witness for `packet_calc_write_errors_nonfatal`: with a failing
`calculate`, the packet is dropped and the loop continues. -/
theorem packet_calc_write_errors_nonfatal_inst :
    loop_packet_step wGdHandlers () = .continue_processing :=
  (packet_calc_write_errors_nonfatal wGdHandlers ()).1 .exc false rfl rfl

end GaugeData
